import Mathlib

/-!
Shallow embedding of the annotation-bot import scripts.

Strings are modelled as lists of characters; the JavaScript string
operations used by the scripts (split, trim, includes, startsWith,
toLowerCase, replace-first-occurrence, parseInt) are translated below
with their JavaScript semantics.  Database tables are lists of row
records; the per-file transactions are modelled as an operation log
executed against a committed/pending state pair.
-/

/-- Strings of the modelled programs: lists of characters. -/
abbrev Str := List Char

/-- Coerce a Lean string literal into the character-list representation. -/
def strL (s : String) : Str := s.toList

/-- JavaScript s.split(sep) for a single-character separator: splits at every
occurrence of the separator, keeping empty segments; the result is never empty. -/
def jsSplit (sep : Char) : Str → List Str
  | [] => [[]]
  | c :: rest =>
    match jsSplit sep rest with
    | [] => [[]]
    | s :: ss => if c = sep then [] :: s :: ss else (c :: s) :: ss

/-- Helper for the multi-character split, structurally recursive on a fuel
argument (one unit per consumed character) so that it reduces inside the
kernel; the fuel is always the string length, which suffices because every
step consumes at least one character. -/
def jsSplitStrAux (sep : Str) : Nat → Str → List Str
  | _, [] => [[]]
  | 0, s => [s]
  | fuel + 1, c :: rest =>
    if sep ≠ [] ∧ sep.isPrefixOf (c :: rest) then
      [] :: jsSplitStrAux sep fuel (rest.drop (sep.length - 1))
    else
      match jsSplitStrAux sep fuel rest with
      | [] => [[]]
      | s :: ss => (c :: s) :: ss

/-- JavaScript s.split(sep) for a multi-character separator string. -/
def jsSplitStr (sep s : Str) : List Str := jsSplitStrAux sep s.length s

/-- JavaScript s.trim(): drop whitespace from both ends. -/
def jsTrim (s : Str) : Str :=
  ((s.dropWhile Char.isWhitespace).reverse.dropWhile Char.isWhitespace).reverse

/-- JavaScript s.startsWith(p). -/
def jsStartsWith (p s : Str) : Bool := p.isPrefixOf s

/-- JavaScript s.endsWith(p). -/
def jsEndsWith (p s : Str) : Bool := p.isSuffixOf s

/-- JavaScript s.includes(c) for a single character. -/
def jsIncludesChar (c : Char) (s : Str) : Bool := s.contains c

/-- JavaScript hay.includes(needle): substring containment. -/
def jsIncludesSub (needle hay : Str) : Bool :=
  hay.tails.any (fun t => needle.isPrefixOf t)

/-- JavaScript s.toLowerCase() (character-wise lowering). -/
def jsToLower (s : Str) : Str := s.map Char.toLower

/-- Replace the first occurrence of a nonempty pattern (helper). -/
def jsReplaceFirstAux (pat repl : Str) : Str → Str
  | [] => []
  | c :: rest =>
    if pat.isPrefixOf (c :: rest) then repl ++ rest.drop (pat.length - 1)
    else c :: jsReplaceFirstAux pat repl rest

/-- JavaScript s.replace(pat, repl) for a string pattern: replaces the first
occurrence only. -/
def jsReplaceFirst (pat repl s : Str) : Str :=
  if pat = [] then repl ++ s else jsReplaceFirstAux pat repl s

/-- Decimal digit value of a character, if any. -/
def decDigitVal? (c : Char) : Option Nat :=
  if c.isDigit then some (c.toNat - 48) else none

/-- Hexadecimal digit value of a character, if any. -/
def hexDigitVal? (c : Char) : Option Nat :=
  if c.isDigit then some (c.toNat - 48)
  else if 'a' ≤ c ∧ c ≤ 'f' then some (c.toNat - 87)
  else if 'A' ≤ c ∧ c ≤ 'F' then some (c.toNat - 55)
  else none

/-- Longest digit-valued segment at the head of the string. -/
def takeDigitsAux (f : Char → Option Nat) : Str → List Nat
  | [] => []
  | c :: rest =>
    match f c with
    | some d => d :: takeDigitsAux f rest
    | none => []

/-- Value of a digit list in the given base, most significant first. -/
def digitsToNat (base : Nat) (ds : List Nat) : Nat :=
  ds.foldl (fun a d => a * base + d) 0

/-- Core of JavaScript parseInt after whitespace and sign stripping: an
optional 0x/0X prefix selects base 16, then the longest digit segment is
read; none models NaN.  (JavaScript number precision limits are not
modelled; the scripts apply this to genomic coordinates.) -/
def jsParseIntFrom (neg : Bool) (s : Str) : Option Int :=
  let hex : Bool :=
    match s with
    | '0' :: c :: _ => c == 'x' || c == 'X'
    | _ => false
  let body := if hex then s.drop 2 else s
  let ds := takeDigitsAux (if hex then hexDigitVal? else decDigitVal?) body
  if ds = [] then none
  else
    let n : Int := Int.ofNat (digitsToNat (if hex then 16 else 10) ds)
    some (if neg then -n else n)

/-- JavaScript parseInt(s) with no radix argument; none models NaN. -/
def jsParseInt (s : Str) : Option Int :=
  match s.dropWhile Char.isWhitespace with
  | '-' :: rest => jsParseIntFrom true rest
  | '+' :: rest => jsParseIntFrom false rest
  | t => jsParseIntFrom false t

/-- JavaScript parseInt(s) || 1, as used for GFF start/end: NaN and 0 both
fall back to 1. -/
def jsParseIntOr1 (s : Str) : Int :=
  match jsParseInt s with
  | some n => if n = 0 then 1 else n
  | none => 1

/-- JavaScript s || null on a string value: the empty string is falsy. -/
def jsOrNullStr (s : Str) : Option Str :=
  if s = [] then none else some s

/-- JavaScript fileName.replace(regex dot-ext-at-end, empty): removes a final
dot followed by one or more characters none of which is a dot or slash. -/
def stripExt (s : Str) : Str :=
  let rev := s.reverse
  let after := rev.takeWhile (fun c => c ≠ '.')
  if after.length < rev.length ∧ after ≠ [] ∧ ¬ after.contains '/' then
    (rev.drop (after.length + 1)).reverse
  else s

/-- Lower-case hexadecimal digit character for a value below 16. -/
def hexDigitChar (n : Nat) : Char :=
  if n < 10 then Char.ofNat (48 + n) else Char.ofNat (87 + n)

/-- JSON string escaping of one character, as JSON.stringify performs it. -/
def jsonEscapeChar (c : Char) : Str :=
  if c = '"' then ['\\', '"']
  else if c = '\\' then ['\\', '\\']
  else if c = '\n' then ['\\', 'n']
  else if c = '\r' then ['\\', 'r']
  else if c = '\t' then ['\\', 't']
  else if c.toNat = 8 then ['\\', 'b']
  else if c.toNat = 12 then ['\\', 'f']
  else if c.toNat < 32 then
    ['\\', 'u', '0', '0', hexDigitChar (c.toNat / 16), hexDigitChar (c.toNat % 16)]
  else [c]

/-- JSON.stringify of an array of strings. -/
def jsonStringifyStrArr (xs : List Str) : Str :=
  let items := xs.map (fun s => '"' :: (s.foldr (fun c acc => jsonEscapeChar c ++ acc) ['"']))
  ['['] ++ List.intercalate [','] items ++ [']']

/-- Assignment obj[k] = v on a JavaScript object modelled as an association
list: an existing key keeps its position and gets the new value, a new key
is appended. -/
def objSet (m : List (Str × Str)) (k v : Str) : List (Str × Str) :=
  if m.any (fun p => p.1 == k) then
    m.map (fun p => if p.1 == k then (k, v) else p)
  else m ++ [(k, v)]

/-!
GFF importer (import_gff_folder.js): attribute parsing and per-line
feature construction, translated from processGffFile.
-/

/-- Process one semicolon-separated token of a GFF attribute string, as the
loop body in processGffFile does: a token without an equals sign is kept
only when it splits on a colon into exactly two parts; a token with an
equals sign is destructured into its first two segments, kept only when
both are nonempty. -/
def parseAttrPair (obj : List (Str × Str)) (pair : Str) : List (Str × Str) :=
  if ¬ jsIncludesChar '=' pair then
    let colonSplit := jsSplit ':' pair
    match colonSplit with
    | [k, v] => objSet obj (jsTrim k) (jsTrim v)
    | _ => obj
  else
    match jsSplit '=' pair with
    | key :: value :: _ =>
      if key ≠ [] ∧ value ≠ [] then objSet obj (jsTrim key) (jsTrim value) else obj
    | _ => obj

/-- Attribute-string parser of processGffFile: an empty (falsy) attribute
string yields the empty object, otherwise the string is split on
semicolons and each token is folded in. -/
def parseAttributes (attributesStr : Str) : List (Str × Str) :=
  if attributesStr = [] then []
  else (jsSplit ';' attributesStr).foldl parseAttrPair []

/-- Row of the gff_features table, as built by processGffFile before the
batch insert.  The end column is named end_pos because end is a Lean
keyword. -/
structure GffFeature where
  file_id : Nat
  seqid : Str
  source : Str
  type : Str
  start : Int
  end_pos : Int
  score : Option Str
  strand : Option Str
  phase : Option Str
  attributes : List (Str × Str)
deriving Repr, DecidableEq

/-- Data-line handling of processGffFile: split on tabs, skip lines with
fewer than nine columns, otherwise build the feature row pushed onto the
batch (sentinel dot becomes null, start/end go through parseInt-or-1). -/
def parseGffDataLine (fileId : Nat) (line : Str) : Option GffFeature :=
  let columns := jsSplit '\t' line
  match columns with
  | seqid :: source :: type :: start :: endF :: score :: strand :: phase :: attributesStr :: _ =>
    some {
      file_id := fileId
      seqid := seqid
      source := source
      type := type
      start := jsParseIntOr1 start
      end_pos := jsParseIntOr1 endF
      score := if score = ['.'] then none else some score
      strand := if strand = ['.'] then none else some strand
      phase := if phase = ['.'] then none else some phase
      attributes := parseAttributes attributesStr }
  | _ => none

/-!
Generic model of the per-file SQL transactions: a committed state plus an
optional pending state.  Statements executed while a transaction is open
act on the pending copy; COMMIT publishes it, ROLLBACK discards it, and a
write outside a transaction autocommits (the JSON importer path).
-/

/-- Database connection state: committed contents plus the pending contents
of an open transaction, if any. -/
structure Tx (δ : Type) where
  committed : δ
  pending : Option δ
deriving Repr, DecidableEq

/-- SQL statements issued by the importers, abstracted over the kind of
write each script performs. -/
inductive SqlOp (ω : Type) where
  | beginTx
  | commitTx
  | rollbackTx
  | write (w : ω)
deriving Repr, DecidableEq

/-- Execute one statement against the connection state. -/
def execOp (applyW : δ → ω → δ) (st : Tx δ) : SqlOp ω → Tx δ
  | .beginTx => { st with pending := some st.committed }
  | .commitTx =>
    match st.pending with
    | some p => ⟨p, none⟩
    | none => st
  | .rollbackTx => { st with pending := none }
  | .write w =>
    match st.pending with
    | some p => { st with pending := some (applyW p w) }
    | none => { st with committed := applyW st.committed w }

/-- Execute a statement list on a committed database; the visible result is
the committed state afterwards. -/
def execOps (applyW : δ → ω → δ) (db : δ) (ops : List (SqlOp ω)) : δ :=
  (ops.foldl (execOp applyW) ⟨db, none⟩).committed

/-!
TSV importers (import-tsv.mjs for PostgreSQL, import_bakta_sqlite.mjs for
SQLite): header metadata, per-line annotation rows, per-file transaction.
-/

/-- Metadata extracted from the TSV header comment lines. -/
structure TsvMetadata where
  software_version : Str
  database_version : Str
  database_type : Str
  doi : Str
  url : Str
deriving Repr, DecidableEq

/-- One iteration of the parseMetadata loop (identical in both TSV
importers). -/
def parseMetadataStep (m : TsvMetadata) (line : Str) : TsvMetadata :=
  if jsStartsWith (strL "# Software:") line then
    { m with software_version := jsTrim (jsReplaceFirst (strL "# Software:") [] line) }
  else if jsStartsWith (strL "# Database:") line then
    let parts := jsSplit ',' (jsTrim (jsReplaceFirst (strL "# Database:") [] line))
    let m1 :=
      if parts.length ≥ 1 then { m with database_version := jsTrim (parts.getD 0 []) } else m
    if parts.length ≥ 2 then { m1 with database_type := jsTrim (parts.getD 1 []) } else m1
  else if jsStartsWith (strL "# DOI:") line then
    { m with doi := jsTrim (jsReplaceFirst (strL "# DOI:") [] line) }
  else if jsStartsWith (strL "# URL:") line then
    { m with url := jsTrim (jsReplaceFirst (strL "# URL:") [] line) }
  else m

/-- parseMetadata of the TSV importers: fold the header lines over an
all-empty metadata record. -/
def parseMetadata (lines : List Str) : TsvMetadata :=
  lines.foldl parseMetadataStep ⟨[], [], [], [], []⟩

/-- Header lines of a TSV file: lines starting with the hash character. -/
def tsvHeaderLines (content : Str) : List Str :=
  (jsSplit '\n' content).filter (fun line => jsStartsWith (strL "#") line)

/-- Data lines of a TSV file: lines not starting with hash whose trimmed
form is nonempty. -/
def tsvDataLines (content : Str) : List Str :=
  (jsSplit '\n' content).filter
    (fun line => !jsStartsWith (strL "#") line && !(jsTrim line).isEmpty)

/-- Row of the genomes table shared by both TSV importers. -/
structure GenomeRow where
  id : Nat
  sample_id : Str
  software_version : Str
  database_version : Str
  database_type : Str
  doi : Str
  url : Str
  file_path : Str
deriving Repr, DecidableEq

/-- Row of the annotations table of the PostgreSQL TSV importer; dbxrefs is
a text array there. -/
structure AnnotationRow where
  genome_id : Nat
  sequence_id : Str
  feature_type : Str
  start_position : Option Int
  stop_position : Option Int
  strand : Str
  locus_tag : Option Str
  gene : Option Str
  product : Option Str
  dbxrefs : Option (List Str)
deriving Repr, DecidableEq

/-- Row of the annotations table of the SQLite TSV importer; dbxrefs is a
JSON-serialized string there. -/
structure AnnotationRowS where
  genome_id : Nat
  sequence_id : Str
  feature_type : Str
  start_position : Option Int
  stop_position : Option Int
  strand : Str
  locus_tag : Option Str
  gene : Option Str
  product : Option Str
  dbxrefs : Option Str
deriving Repr, DecidableEq

/-- Per-line row construction of processTsvFile in import-tsv.mjs: split on
tabs, skip lines with fewer than eight parts, empty locus_tag, gene and
product become null, dbxrefs is the comma-space split of a nonempty ninth
part.  NaN results of parseInt are modelled as none. -/
def parseTsvLinePg (genomeId : Nat) (line : Str) : Option AnnotationRow :=
  let parts := jsSplit '\t' line
  if parts.length < 8 then none
  else some {
    genome_id := genomeId
    sequence_id := parts.getD 0 []
    feature_type := parts.getD 1 []
    start_position := jsParseInt (parts.getD 2 [])
    stop_position := jsParseInt (parts.getD 3 [])
    strand := parts.getD 4 []
    locus_tag := jsOrNullStr (parts.getD 5 [])
    gene := jsOrNullStr (parts.getD 6 [])
    product := jsOrNullStr (parts.getD 7 [])
    dbxrefs :=
      if parts.length > 8 ∧ parts.getD 8 [] ≠ [] then
        some ((jsSplitStr (strL ", ") (parts.getD 8 [])).filter (fun x => !(jsTrim x).isEmpty))
      else none }

/-- Per-line row construction of processTsvFile in import_bakta_sqlite.mjs:
identical to the PostgreSQL variant except that dbxrefs is stored as a
JSON string. -/
def parseTsvLineSqlite (genomeId : Nat) (line : Str) : Option AnnotationRowS :=
  let parts := jsSplit '\t' line
  if parts.length < 8 then none
  else some {
    genome_id := genomeId
    sequence_id := parts.getD 0 []
    feature_type := parts.getD 1 []
    start_position := jsParseInt (parts.getD 2 [])
    stop_position := jsParseInt (parts.getD 3 [])
    strand := parts.getD 4 []
    locus_tag := jsOrNullStr (parts.getD 5 [])
    gene := jsOrNullStr (parts.getD 6 [])
    product := jsOrNullStr (parts.getD 7 [])
    dbxrefs :=
      if parts.length > 8 ∧ parts.getD 8 [] ≠ [] then
        some (jsonStringifyStrArr
          ((jsSplitStr (strL ", ") (parts.getD 8 [])).filter (fun x => !(jsTrim x).isEmpty)))
      else none }

/-- Helper for the batch slicing, structurally recursive on a fuel argument
(one unit per emitted chunk) so that it reduces inside the kernel; a fuel
of the list length suffices because every chunk takes at least one
element. -/
def listChunksAux (n : Nat) : Nat → List α → List (List α)
  | _, [] => []
  | 0, _ :: _ => []
  | fuel + 1, x :: xs => (x :: xs).take n :: listChunksAux n fuel ((x :: xs).drop n)

/-- Consecutive slices of the given size, as the batch loops produce them
(batch index times size up to the next boundary). -/
def listChunks (n : Nat) (xs : List α) : List (List α) :=
  if n == 0 then [] else listChunksAux n xs.length xs

/-- Database of the PostgreSQL TSV importer. -/
structure TsvDb where
  genomes : List GenomeRow
  annotations : List AnnotationRow
  next_genome_id : Nat
deriving Repr, DecidableEq

/-- Database of the SQLite TSV importer. -/
structure SqliteDb where
  genomes : List GenomeRow
  annotations : List AnnotationRowS
  next_genome_id : Nat
deriving Repr, DecidableEq

/-- Writes issued by processTsvFile in import-tsv.mjs: the genome INSERT
with RETURNING id, then one multi-row INSERT per nonempty batch. -/
inductive TsvWrite where
  | insertGenome (g : GenomeRow)
  | insertAnnotations (rows : List AnnotationRow)
deriving Repr, DecidableEq

/-- Writes issued by processTsvFile in import_bakta_sqlite.mjs: the genome
INSERT, then one prepared-statement INSERT per qualifying row. -/
inductive SqliteWrite where
  | insertGenome (g : GenomeRow)
  | insertAnnotRow (r : AnnotationRowS)
deriving Repr, DecidableEq

/-- Effect of one PostgreSQL TSV write on the database; the genomes table
id sequence advances on insert. -/
def applyTsvWrite (db : TsvDb) : TsvWrite → TsvDb
  | .insertGenome g =>
    { db with genomes := db.genomes ++ [g], next_genome_id := db.next_genome_id + 1 }
  | .insertAnnotations rows => { db with annotations := db.annotations ++ rows }

/-- Effect of one SQLite TSV write on the database. -/
def applySqliteWrite (db : SqliteDb) : SqliteWrite → SqliteDb
  | .insertGenome g =>
    { db with genomes := db.genomes ++ [g], next_genome_id := db.next_genome_id + 1 }
  | .insertAnnotRow r => { db with annotations := db.annotations ++ [r] }

/-- Statement sequence of one file import in import-tsv.mjs, between BEGIN
and COMMIT.  The RETURNING id of the genome insert is the next id of the
sequence, read off the pre-file database state; batches that contribute no
qualifying row issue no INSERT. -/
def tsvWritesPg (db : TsvDb) (fileName filePath content : Str) : List TsvWrite :=
  let dataLines := tsvDataLines content
  let metadata := parseMetadata (tsvHeaderLines content)
  let sampleId := stripExt fileName
  let genomeId := db.next_genome_id
  let g : GenomeRow :=
    ⟨genomeId, sampleId, metadata.software_version, metadata.database_version,
     metadata.database_type, metadata.doi, metadata.url, filePath⟩
  let batches := (listChunks 1000 dataLines).map (fun b => b.filterMap (parseTsvLinePg genomeId))
  TsvWrite.insertGenome g :: (batches.filter (fun rows => rows ≠ [])).map TsvWrite.insertAnnotations

/-- Statement sequence of one file import in import_bakta_sqlite.mjs. -/
def sqliteWrites (db : SqliteDb) (fileName filePath content : Str) : List SqliteWrite :=
  let dataLines := tsvDataLines content
  let metadata := parseMetadata (tsvHeaderLines content)
  let sampleId := stripExt fileName
  let genomeId := db.next_genome_id
  let g : GenomeRow :=
    ⟨genomeId, sampleId, metadata.software_version, metadata.database_version,
     metadata.database_type, metadata.doi, metadata.url, filePath⟩
  let rowInserts :=
    ((listChunks 500 dataLines).map
      (fun b => (b.filterMap (parseTsvLineSqlite genomeId)).map SqliteWrite.insertAnnotRow)).flatten
  SqliteWrite.insertGenome g :: rowInserts

/-- Result of processing one file: the visible database, whether the catch
block ran (transaction rolled back and the error rethrown), and the
annotation count printed by the completion log (dataLines.length). -/
structure TsvFileResult (δ : Type) where
  db : δ
  errored : Bool
  logCount : Nat
deriving Repr, DecidableEq

/-- processTsvFile of import-tsv.mjs with fault injection: failAt names the
index of the write statement that throws; all earlier writes have applied
inside the transaction, the catch issues ROLLBACK and rethrows.  Without a
failing statement everything commits and the completion log reports
dataLines.length. -/
def processTsvFilePg (db : TsvDb) (fileName filePath content : Str)
    (failAt : Option Nat) : TsvFileResult TsvDb :=
  let ws := tsvWritesPg db fileName filePath content
  match failAt with
  | some k =>
    if k < ws.length then
      ⟨execOps applyTsvWrite db
        (SqlOp.beginTx :: (ws.take k).map SqlOp.write ++ [SqlOp.rollbackTx]), true, 0⟩
    else
      ⟨execOps applyTsvWrite db (SqlOp.beginTx :: ws.map SqlOp.write ++ [SqlOp.commitTx]),
       false, (tsvDataLines content).length⟩
  | none =>
    ⟨execOps applyTsvWrite db (SqlOp.beginTx :: ws.map SqlOp.write ++ [SqlOp.commitTx]),
     false, (tsvDataLines content).length⟩

/-- processTsvFile of import_bakta_sqlite.mjs with the same fault-injection
scheme. -/
def processSqliteFile (db : SqliteDb) (fileName filePath content : Str)
    (failAt : Option Nat) : TsvFileResult SqliteDb :=
  let ws := sqliteWrites db fileName filePath content
  match failAt with
  | some k =>
    if k < ws.length then
      ⟨execOps applySqliteWrite db
        (SqlOp.beginTx :: (ws.take k).map SqlOp.write ++ [SqlOp.rollbackTx]), true, 0⟩
    else
      ⟨execOps applySqliteWrite db (SqlOp.beginTx :: ws.map SqlOp.write ++ [SqlOp.commitTx]),
       false, (tsvDataLines content).length⟩
  | none =>
    ⟨execOps applySqliteWrite db (SqlOp.beginTx :: ws.map SqlOp.write ++ [SqlOp.commitTx]),
     false, (tsvDataLines content).length⟩

/-- Model of path.join(folder, name) with a slash. -/
def pathJoin (a b : Str) : Str := a ++ '/' :: b

/-- Result of a folder-level TSV run: final database, number of files the
loop attempted, exit code if the process exited through an error path, and
the success/failure tally if one was printed. -/
structure TsvRunResult (δ : Type) where
  db : δ
  processedCount : Nat
  exitCode : Option Nat
  tally : Option (Nat × Nat)
deriving Repr, DecidableEq

/-- Matching files of the TSV importers: lower-cased name contains the
pattern. -/
def tsvMatches (pattern : Str) (files : List (Str × Str)) : List (Str × Str) :=
  files.filter (fun f => jsIncludesSub pattern (jsToLower f.1))

/-- File loop of main() in import-tsv.mjs: processTsvFile is awaited with
no per-file catch, so the first failing file reaches the top-level catch,
which logs and calls process.exit(1); later files are never processed and
no tally is printed. -/
def mainTsvPgLoop (failAt : Str → Option Nat) (folder : Str) :
    TsvDb → Nat → List (Str × Str) → TsvRunResult TsvDb
  | db, processed, [] => ⟨db, processed, none, none⟩
  | db, processed, (name, content) :: rest =>
    let r := processTsvFilePg db name (pathJoin folder name) content (failAt name)
    if r.errored then ⟨r.db, processed + 1, some 1, none⟩
    else mainTsvPgLoop failAt folder r.db (processed + 1) rest

/-- main() of import-tsv.mjs: exit 1 when no file matches, otherwise run
the sequential loop. -/
def mainTsvPg (db : TsvDb) (folder pattern : Str) (files : List (Str × Str))
    (failAt : Str → Option Nat) : TsvRunResult TsvDb :=
  let matched := tsvMatches pattern files
  if matched.length = 0 then ⟨db, 0, some 1, none⟩
  else mainTsvPgLoop failAt folder db 0 matched

/-- File loop of main() in import_bakta_sqlite.mjs: each file has its own
try/catch, success and error counters accumulate, and the final tally is
printed after the loop. -/
def mainSqliteLoop (failAt : Str → Option Nat) (folder : Str) :
    SqliteDb → Nat → Nat → Nat → List (Str × Str) → TsvRunResult SqliteDb
  | db, s, e, processed, [] => ⟨db, processed, none, some (s, e)⟩
  | db, s, e, processed, (name, content) :: rest =>
    let r := processSqliteFile db name (pathJoin folder name) content (failAt name)
    if r.errored then mainSqliteLoop failAt folder r.db s (e + 1) (processed + 1) rest
    else mainSqliteLoop failAt folder r.db (s + 1) e (processed + 1) rest

/-- main() of import_bakta_sqlite.mjs: exit 1 when no file matches,
otherwise run the loop and print the tally. -/
def mainSqlite (db : SqliteDb) (folder pattern : Str) (files : List (Str × Str))
    (failAt : Str → Option Nat) : TsvRunResult SqliteDb :=
  let matched := tsvMatches pattern files
  if matched.length = 0 then ⟨db, 0, some 1, none⟩
  else mainSqliteLoop failAt folder db 0 0 0 matched

/-!
GFF importer database model: gff_files, gff_features and
sequence_regions, with serial id sequences.
-/

/-- Row of the gff_files table. -/
structure GffFileRow where
  file_id : Nat
  filename : Str
  original_path : Str
  file_size : Nat
  version : Option Str
  genome_build : Option Str
  genome_build_accession : Option Str
  annotation_date : Option Str
  annotation_source : Option Str
deriving Repr, DecidableEq

/-- Row of the sequence_regions table; start and end hold the parseInt
results (none models NaN), species_url is filled by a later species
pragma.  The end column is named end_pos because end is a Lean keyword. -/
structure SeqRegionRow where
  region_id : Nat
  file_id : Nat
  seqid : Str
  start : Option Int
  end_pos : Option Int
  species_url : Option Str
deriving Repr, DecidableEq

/-- Database of the GFF importer. -/
structure GffDb where
  gff_files : List GffFileRow
  gff_features : List GffFeature
  sequence_regions : List SeqRegionRow
  next_file_id : Nat
  next_region_id : Nat
deriving Repr, DecidableEq

/-- UPDATE gff_files SET ... WHERE file_id = fid. -/
def updateFileRow (db : GffDb) (fid : Nat) (f : GffFileRow → GffFileRow) : GffDb :=
  { db with gff_files := db.gff_files.map (fun r => if r.file_id == fid then f r else r) }

/-- State of the line loop in processGffFile.  insertedFeatures and
insertedRegions are ghost logs recording the rows this run has put into
the database (mirroring every later update applied to them); they let the
theorems speak about the rows originating from the current file. -/
structure GffRunState where
  db : GffDb
  fileId : Nat
  lineCount : Nat
  featureCount : Nat
  seqRegionCount : Nat
  batch : List GffFeature
  insertedFeatures : List GffFeature
  insertedRegions : List SeqRegionRow
deriving Repr, DecidableEq

/-- insertFeatureBatch: one multi-row INSERT of the accumulated batch. -/
def gffFlushBatch (st : GffRunState) : GffRunState :=
  { st with
    db := { st.db with gff_features := st.db.gff_features ++ st.batch }
    insertedFeatures := st.insertedFeatures ++ st.batch
    batch := [] }

/-- Capture of the species pragma value: the source applies the regular
expression matching the species token followed by whitespace and a
nonempty remainder; the match is taken at the guarded prefix occurrence. -/
def speciesUrlOf (line : Str) : Option Str :=
  let rest := line.drop 9
  let ws := rest.takeWhile Char.isWhitespace
  if ws ≠ [] ∧ rest.dropWhile Char.isWhitespace ≠ [] then
    some (rest.dropWhile Char.isWhitespace)
  else none

/-- MAX(region_id) of the sequence regions belonging to a file. -/
def maxRegionId (db : GffDb) (fid : Nat) : Option Nat :=
  ((db.sequence_regions.filter (fun r => r.file_id == fid)).map (fun r => r.region_id)).max?

/-- Header-line handling of processGffFile, branch for branch in source
order.  The genome-build-accession branch is unreachable because the
genome-build test already matches its prefix, exactly as in the source.
The upload timestamp column is not modelled. -/
def gffHeaderStep (st : GffRunState) (line : Str) : GffRunState :=
  if jsStartsWith (strL "##gff-version") line then
    let db2 := updateFileRow st.db st.fileId
      (fun r => { r with version := (jsSplit ' ' line)[1]? })
    { st with db := db2 }
  else if jsStartsWith (strL "#!genome-build") line then
    let db2 := updateFileRow st.db st.fileId
      (fun r => { r with genome_build := (jsSplit ' ' line)[1]? })
    { st with db := db2 }
  else if jsStartsWith (strL "#!genome-build-accession") line then
    let db2 := updateFileRow st.db st.fileId
      (fun r => { r with genome_build_accession := (jsSplit ' ' line)[1]? })
    { st with db := db2 }
  else if jsStartsWith (strL "#!annotation-date") line then
    let db2 := updateFileRow st.db st.fileId
      (fun r => { r with annotation_date := (jsSplit ' ' line)[1]? })
    { st with db := db2 }
  else if jsStartsWith (strL "#!annotation-source") line then
    let src := jsReplaceFirst (strL "#!annotation-source ") [] line
    let db2 := updateFileRow st.db st.fileId (fun r => { r with annotation_source := some src })
    { st with db := db2 }
  else if jsStartsWith (strL "##sequence-region") line then
    let parts := jsSplit ' ' line
    if parts.length ≥ 4 then
      let row : SeqRegionRow :=
        ⟨st.db.next_region_id, st.fileId, parts.getD 1 [],
         jsParseInt (parts.getD 2 []), jsParseInt (parts.getD 3 []), none⟩
      { st with
        db := { st.db with
          sequence_regions := st.db.sequence_regions ++ [row]
          next_region_id := st.db.next_region_id + 1 }
        insertedRegions := st.insertedRegions ++ [row]
        seqRegionCount := st.seqRegionCount + 1 }
    else st
  else if jsStartsWith (strL "##species") line then
    match speciesUrlOf line with
    | some url =>
      match maxRegionId st.db st.fileId with
      | some m =>
        let upd := fun (r : SeqRegionRow) =>
          if r.region_id == m then { r with species_url := some url } else r
        { st with
          db := { st.db with sequence_regions := st.db.sequence_regions.map upd }
          insertedRegions := st.insertedRegions.map upd }
      | none => st
    | none => st
  else st

/-- Body of the line loop in processGffFile: count the line, skip blank
lines, dispatch header lines, and for data lines with enough columns push
the feature onto the batch, flushing at the batch size of 1000. -/
def gffLineStep (st : GffRunState) (line : Str) : GffRunState :=
  let st := { st with lineCount := st.lineCount + 1 }
  if (jsTrim line).isEmpty then st
  else if jsStartsWith (strL "#") line then gffHeaderStep st line
  else
    match parseGffDataLine st.fileId line with
    | none => st
    | some f =>
      let st := { st with
        batch := st.batch ++ [f]
        featureCount := st.featureCount + 1 }
      if st.batch.length ≥ 1000 then gffFlushBatch st else st

/-- Result of processGffFile: final database, the file id used, the counts
the completion log prints, and the ghost logs of the rows this run
inserted. -/
structure GffFileRunResult where
  db : GffDb
  fileId : Nat
  lineCount : Nat
  featureCount : Nat
  seqRegionCount : Nat
  insertedFeatures : List GffFeature
  insertedRegions : List SeqRegionRow
deriving Repr, DecidableEq

/-- processGffFile of import_gff_folder.js (success path): look up the
filename; when present delete its features and sequence regions and
update path and size, otherwise insert a fresh gff_files row; then fold
the lines and flush the remaining batch.  The content is split on
newlines; readline produces the same lines except for a trailing empty
one, which the blank-line skip discards either way. -/
def processGffFile (db : GffDb) (fileName filePath : Str) (fileSize : Nat)
    (content : Str) : GffFileRunResult :=
  let startPair :=
    match db.gff_files.find? (fun r => r.filename == fileName) with
    | some r =>
      let fid := r.file_id
      let db1 := { db with
        gff_features := db.gff_features.filter (fun f => !(f.file_id == fid))
        sequence_regions := db.sequence_regions.filter (fun s => !(s.file_id == fid)) }
      (updateFileRow db1 fid
        (fun row => { row with original_path := filePath, file_size := fileSize }), fid)
    | none =>
      let fid := db.next_file_id
      let row : GffFileRow := ⟨fid, fileName, filePath, fileSize, none, none, none, none, none⟩
      ({ db with gff_files := db.gff_files ++ [row], next_file_id := db.next_file_id + 1 }, fid)
  let st0 : GffRunState := ⟨startPair.1, startPair.2, 0, 0, 0, [], [], []⟩
  let st := (jsSplit '\n' content).foldl gffLineStep st0
  let st := if st.batch ≠ [] then gffFlushBatch st else st
  ⟨st.db, startPair.2, st.lineCount, st.featureCount, st.seqRegionCount,
   st.insertedFeatures, st.insertedRegions⟩

/-- isGffFile of import_gff_folder.js. -/
def isGffFile (filename : Str) : Bool :=
  jsEndsWith (strL ".gff") (jsToLower filename) || jsEndsWith (strL ".gff3") (jsToLower filename)

/-- Result of the GFF folder run; exitCode none means the script completed
normally (processGffFolder never exits through process.exit). -/
structure GffRunResult where
  db : GffDb
  processedCount : Nat
  exitCode : Option Nat
deriving Repr, DecidableEq

/-- processGffFolder of import_gff_folder.js over (name, content, size)
triples: filter by extension, process each file inside a per-file
try/catch (a failed file leaves the database unchanged because its
transaction rolls back, and the loop continues), then log completion and
exit normally whatever the tally. -/
def processGffFolder (db : GffDb) (folder : Str) (files : List (Str × Str × Nat))
    (fails : Str → Bool) : GffRunResult :=
  let gffFiles := files.filter (fun f => isGffFile f.1)
  let finalDb := gffFiles.foldl
    (fun d f =>
      if fails f.1 then d
      else (processGffFile d f.1 (pathJoin folder f.1) f.2.2 f.2.1).db) db
  ⟨finalDb, gffFiles.length, none⟩

/-!
JSON importer (import-json-files.js).  Its BEGIN/COMMIT/ROLLBACK
statements are commented out in the source, so every INSERT autocommits:
the model applies each query directly to the visible database, and a
failing query simply stops the file with the rows so far still in place.
-/

/-- Parsed JSON values. -/
inductive Json where
  | null
  | bool (b : Bool)
  | num (n : Int)
  | str (s : Str)
  | arr (xs : List Json)
  | obj (fields : List (Str × Json))

/-- Array.isArray. -/
def Json.isArr : Json → Bool
  | .arr _ => true
  | _ => false

/-- JavaScript truthiness of a JSON value. -/
def Json.truthy : Json → Bool
  | .null => false
  | .bool b => b
  | .num n => n != 0
  | .str s => !s.isEmpty
  | .arr _ => true
  | .obj _ => true

/-- Property access value.key; access on a non-object is modelled as
undefined. -/
def jGet : Json → Str → Option Json
  | .obj fields, k => (fields.find? (fun p => p.1 == k)).map (fun p => p.2)
  | _, _ => none

/-- JavaScript value || null as the importer applies it to JSON fields:
missing and falsy values are stored as null. -/
def jOrNull (v : Option Json) : Option Json :=
  match v with
  | some x => if x.truthy then some x else none
  | none => none

/-- Row of the features table of the JSON importer. -/
structure JFeatureRow where
  id : Nat
  genome_id : Nat
  feature_id : Option Json
  type : Option Json
  contig : Option Json
  start : Option Json
  stop : Option Json
  strand : Option Json
  frame : Option Json
  gene : Option Json
  product : Option Json
  start_type : Option Json
  rbs_motif : Option Json
  locus : Option Json

/-- Row of the ups table. -/
structure UpsRow where
  id : Nat
  feature_id : Nat
  uniparc_id : Option Json
  ncbi_nrp_id : Option Json
  uniref100_id : Option Json

/-- Row of the ips table. -/
structure IpsRow where
  feature_id : Nat
  uniref100_id : Option Json
  uniref90_id : Option Json

/-- Row of the psc table. -/
structure PscRow where
  id : Nat
  feature_id : Nat
  uniref90_id : Option Json
  gene : Option Json
  product : Option Json
  uniref50_id : Option Json
  cog_id : Option Json
  cog_category : Option Json

/-- Row of the pscc table. -/
structure PsccRow where
  id : Nat
  feature_id : Nat
  uniref50_id : Option Json
  product : Option Json

/-- Database of the JSON importer, one list per table of the DDL, with the
serial id sequences the RETURNING id clauses read. -/
structure JsonDb where
  genomes : List (Nat × Str)
  features : List JFeatureRow
  db_xrefs : List (Nat × Json)
  genes : List (Nat × Json)
  ups : List UpsRow
  ups_db_xrefs : List (Nat × Json)
  ips : List IpsRow
  psc : List PscRow
  psc_go_ids : List (Nat × Json)
  psc_ec_ids : List (Nat × Json)
  pscc : List PsccRow
  pscc_db_xrefs : List (Nat × Json)
  next_genome_id : Nat
  next_feature_id : Nat
  next_ups_id : Nat
  next_psc_id : Nat
  next_pscc_id : Nat

/-- Query execution context of one JSON file: fault-injection point, the
index of the next query, and the visible (autocommitted) database. -/
structure JQueryCtx where
  failAt : Option Nat
  idx : Nat
  db : JsonDb

/-- Run one query: it throws when its index is the injected fault, leaving
the database as is; otherwise its effect applies immediately (there is no
enclosing transaction). -/
def runQ (c : JQueryCtx) (applyQ : JsonDb → JsonDb) : Except JQueryCtx JQueryCtx :=
  if c.failAt == some c.idx then .error { c with idx := c.idx + 1 }
  else .ok { c with idx := c.idx + 1, db := applyQ c.db }

/-- insertFeature of import-json-files.js: the main feature INSERT with
RETURNING id, then the conditional child-table inserts, in source order. -/
def insertFeature (feature : Json) (genomeId : Nat) (c : JQueryCtx) :
    Except JQueryCtx JQueryCtx := do
  let featureId := c.db.next_feature_id
  let c ← runQ c (fun db => { db with
    features := db.features ++ [⟨featureId, genomeId,
      jOrNull (jGet feature (strL "id")),
      jOrNull (jGet feature (strL "type")),
      jOrNull (jGet feature (strL "contig")),
      jOrNull (jGet feature (strL "start")),
      jOrNull (jGet feature (strL "stop")),
      jOrNull (jGet feature (strL "strand")),
      jOrNull (jGet feature (strL "frame")),
      jOrNull (jGet feature (strL "gene")),
      jOrNull (jGet feature (strL "product")),
      jOrNull (jGet feature (strL "start_type")),
      jOrNull (jGet feature (strL "rbs_motif")),
      jOrNull (jGet feature (strL "locus"))⟩]
    next_feature_id := db.next_feature_id + 1 })
  let c ←
    match jGet feature (strL "db_xrefs") with
    | some (.arr xs) =>
      xs.foldlM (fun c x =>
        runQ c (fun db => { db with db_xrefs := db.db_xrefs ++ [(featureId, x)] })) c
    | _ => pure c
  let c ←
    match jGet feature (strL "genes") with
    | some (.arr xs) =>
      xs.foldlM (fun c x =>
        runQ c (fun db => { db with genes := db.genes ++ [(featureId, x)] })) c
    | _ => pure c
  let c ←
    match jOrNull (jGet feature (strL "ups")) with
    | some u => do
      let upsId := c.db.next_ups_id
      let c ← runQ c (fun db => { db with
        ups := db.ups ++ [⟨upsId, featureId,
          jOrNull (jGet u (strL "uniparc_id")),
          jOrNull (jGet u (strL "ncbi_nrp_id")),
          jOrNull (jGet u (strL "uniref100_id"))⟩]
        next_ups_id := db.next_ups_id + 1 })
      match jGet u (strL "db_xrefs") with
      | some (.arr xs) =>
        xs.foldlM (fun c x =>
          runQ c (fun db => { db with ups_db_xrefs := db.ups_db_xrefs ++ [(upsId, x)] })) c
      | _ => pure c
    | none => pure c
  let c ←
    match jOrNull (jGet feature (strL "ips")) with
    | some i =>
      runQ c (fun db => { db with
        ips := db.ips ++ [⟨featureId,
          jOrNull (jGet i (strL "uniref100_id")),
          jOrNull (jGet i (strL "uniref90_id"))⟩] })
    | none => pure c
  let c ←
    match jOrNull (jGet feature (strL "psc")) with
    | some p => do
      let pscId := c.db.next_psc_id
      let c ← runQ c (fun db => { db with
        psc := db.psc ++ [⟨pscId, featureId,
          jOrNull (jGet p (strL "uniref90_id")),
          jOrNull (jGet p (strL "gene")),
          jOrNull (jGet p (strL "product")),
          jOrNull (jGet p (strL "uniref50_id")),
          jOrNull (jGet p (strL "cog_id")),
          jOrNull (jGet p (strL "cog_category"))⟩]
        next_psc_id := db.next_psc_id + 1 })
      let c ←
        match jGet p (strL "go_ids") with
        | some (.arr xs) =>
          xs.foldlM (fun c x =>
            runQ c (fun db => { db with psc_go_ids := db.psc_go_ids ++ [(pscId, x)] })) c
        | _ => pure c
      match jGet p (strL "ec_ids") with
      | some (.arr xs) =>
        xs.foldlM (fun c x =>
          runQ c (fun db => { db with psc_ec_ids := db.psc_ec_ids ++ [(pscId, x)] })) c
      | _ => pure c
    | none => pure c
  match jOrNull (jGet feature (strL "pscc")) with
  | some p => do
    let psccId := c.db.next_pscc_id
    let c ← runQ c (fun db => { db with
      pscc := db.pscc ++ [⟨psccId, featureId,
        jOrNull (jGet p (strL "uniref50_id")),
        jOrNull (jGet p (strL "product"))⟩]
      next_pscc_id := db.next_pscc_id + 1 })
    match jGet p (strL "db_xrefs") with
    | some (.arr xs) =>
      xs.foldlM (fun c x =>
        runQ c (fun db => { db with pscc_db_xrefs := db.pscc_db_xrefs ++ [(psccId, x)] })) c
    | _ => pure c
  | none => pure c

/-- Outcome of processing one JSON file. -/
inductive JsonOutcome where
  | warnedNoFeatures
  | imported (n : Nat)
  | errored
deriving Repr, DecidableEq

/-- processFile of import-json-files.js: warn and return when the features
property is missing, falsy or not an array; otherwise insert the genome
row and every feature, autocommitted, with the inner catch swallowing any
error after logging it. -/
def processJsonFile (db : JsonDb) (fileName : Str) (j : Json) (failAt : Option Nat) :
    JsonDb × JsonOutcome :=
  let fOpt := jGet j (strL "features")
  let bad :=
    match fOpt with
    | none => true
    | some v => !v.truthy || !v.isArr
  if bad then (db, .warnedNoFeatures)
  else
    match fOpt with
    | some (.arr feats) =>
      let c0 : JQueryCtx := ⟨failAt, 0, db⟩
      let genomeId := db.next_genome_id
      match runQ c0 (fun d => { d with
        genomes := d.genomes ++ [(genomeId, fileName)]
        next_genome_id := d.next_genome_id + 1 }) with
      | .error c => (c.db, .errored)
      | .ok c =>
        match feats.foldlM (fun c f => insertFeature f genomeId c) c with
        | .error c => (c.db, .errored)
        | .ok c => (c.db, .imported feats.length)
    | _ => (db, .warnedNoFeatures)

/-- Result of the JSON directory run: processDirectory always reaches its
completion log; the process never exits early over an empty match list. -/
structure JsonRunResult where
  db : JsonDb
  foundCount : Nat
  completedLog : Bool

/-- processDirectory of import-json-files.js over (name, parsed content)
pairs.  The bounded concurrency (groups of four in-flight imports) only
affects interleaving, which the row-list model does not observe; the same
set of files is processed. -/
def processJsonDirectory (db : JsonDb) (files : List (Str × Json))
    (failAt : Str → Option Nat) : JsonRunResult :=
  let jsonFiles := files.filter (fun f => jsEndsWith (strL ".json") (jsToLower f.1))
  let finalDb := jsonFiles.foldl (fun d f => (processJsonFile d f.1 f.2 (failAt f.1)).1) db
  ⟨finalDb, jsonFiles.length, true⟩

/-!
Verification lemmas and claim theorems.
-/

lemma jsSplit_ne_nil (sep : Char) (s : Str) : jsSplit sep s ≠ [] := by
  cases s with
  | nil => simp [jsSplit]
  | cons c rest =>
    simp only [jsSplit]
    split
    · simp
    · split <;> simp

lemma jsSplit_not_mem (sep : Char) (s : Str) (h : sep ∉ s) : jsSplit sep s = [s] := by
  induction s with
  | nil => rfl
  | cons c rest ih =>
    have hc : ¬ (c = sep) := fun e => h (e ▸ List.mem_cons_self c rest)
    have hrest : sep ∉ rest := fun hm => h (List.mem_cons_of_mem _ hm)
    simp [jsSplit, ih hrest, hc]

lemma jsSplit_append (sep : Char) (k rest : Str) (h : sep ∉ k) :
    jsSplit sep (k ++ sep :: rest) = k :: jsSplit sep rest := by
  induction k with
  | nil =>
    simp only [List.nil_append, jsSplit]
    rcases hr : jsSplit sep rest with _ | ⟨s0, ss⟩
    · exact absurd hr (jsSplit_ne_nil sep rest)
    · simp
  | cons c kt ih =>
    have hc : ¬ (c = sep) := fun e => h (e ▸ List.mem_cons_self c kt)
    have hk : sep ∉ kt := fun hm => h (List.mem_cons_of_mem _ hm)
    simp only [List.cons_append, jsSplit, List.append_eq, ih hk, hc, if_false]

lemma jsIncludesChar_true (c : Char) (s : Str) (h : c ∈ s) : jsIncludesChar c s = true := by
  simpa [jsIncludesChar] using List.elem_iff.mpr h

lemma jsIncludesChar_false (c : Char) (s : Str) (h : c ∉ s) : jsIncludesChar c s = false := by
  simp [jsIncludesChar]
  intro hm
  exact absurd (List.elem_iff.mp (by simpa [List.contains] using hm)) h

lemma parseAttrPair_eq_pair (obj : List (Str × Str)) (k v : Str)
    (hk : '=' ∉ k) (hv : '=' ∉ v) (hk0 : k ≠ []) (hv0 : v ≠ []) :
    parseAttrPair obj (k ++ '=' :: v) = objSet obj (jsTrim k) (jsTrim v) := by
  have hin : jsIncludesChar '=' (k ++ '=' :: v) = true :=
    jsIncludesChar_true _ _ (by simp)
  have hsplit : jsSplit '=' (k ++ '=' :: v) = [k, v] := by
    rw [jsSplit_append _ _ _ hk, jsSplit_not_mem _ _ hv]
  simp [parseAttrPair, hin, hsplit, hk0, hv0]

lemma parseAttrPair_drop (obj : List (Str × Str)) (pair : Str)
    (hne : '=' ∉ pair) (hlen : (jsSplit ':' pair).length ≠ 2) :
    parseAttrPair obj pair = obj := by
  have hin : jsIncludesChar '=' pair = false := jsIncludesChar_false _ _ hne
  simp only [parseAttrPair, hin, Bool.false_eq_true, not_false_iff, if_true]
  rcases hs : jsSplit ':' pair with _ | ⟨a, _ | ⟨b, _ | ⟨c, t⟩⟩⟩
  · simp
  · simp
  · exact absurd (by simp [hs]) hlen
  · simp

lemma parseAttrPair_colon (obj : List (Str × Str)) (k v : Str)
    (hke : '=' ∉ k) (hve : '=' ∉ v) (hkc : ':' ∉ k) (hvc : ':' ∉ v) :
    parseAttrPair obj (k ++ ':' :: v) = objSet obj (jsTrim k) (jsTrim v) := by
  have hne : '=' ∉ (k ++ ':' :: v) := by
    intro hm
    rcases List.mem_append.mp hm with h1 | h1
    · exact hke h1
    · rcases List.mem_cons.mp h1 with h2 | h2
      · exact absurd h2 (by decide)
      · exact hve h2
  have hin : jsIncludesChar '=' (k ++ ':' :: v) = false := jsIncludesChar_false _ _ hne
  have hsplit : jsSplit ':' (k ++ ':' :: v) = [k, v] := by
    rw [jsSplit_append _ _ _ hkc, jsSplit_not_mem _ _ hvc]
  simp [parseAttrPair, hin, hsplit]

/-- C4: the attribute parser maps key=value pairs to entries, drops tokens
with no equals sign that do not colon-split in two, accepts legacy
colon pairs, and parses the three spec examples accordingly. -/
theorem gff_attribute_parser_spec :
    parseAttributes (strL "ID=gene1;Name=test")
        = [(strL "ID", strL "gene1"), (strL "Name", strL "test")] ∧
    parseAttributes (strL "justakey") = [] ∧
    parseAttributes (strL "Name:test") = [(strL "Name", strL "test")] ∧
    (∀ obj k v, '=' ∉ k → '=' ∉ v → k ≠ [] → v ≠ [] →
      parseAttrPair obj (k ++ '=' :: v) = objSet obj (jsTrim k) (jsTrim v)) ∧
    (∀ obj pair, '=' ∉ pair → (jsSplit ':' pair).length ≠ 2 →
      parseAttrPair obj pair = obj) ∧
    (∀ obj k v, '=' ∉ k → '=' ∉ v → ':' ∉ k → ':' ∉ v →
      parseAttrPair obj (k ++ ':' :: v) = objSet obj (jsTrim k) (jsTrim v)) := by
  refine ⟨by decide, by decide, by decide, ?_, ?_, ?_⟩
  · exact fun obj k v hk hv hk0 hv0 => parseAttrPair_eq_pair obj k v hk hv hk0 hv0
  · exact fun obj pair h1 h2 => parseAttrPair_drop obj pair h1 h2
  · exact fun obj k v h1 h2 h3 h4 => parseAttrPair_colon obj k v h1 h2 h3 h4

theorem gff_attribute_parser_spec_witness :
    ('=' ∉ strL "note") ∧ ('=' ∉ strL "x") ∧ strL "note" ≠ [] ∧ strL "x" ≠ [] ∧
    parseAttrPair [] (strL "note" ++ '=' :: strL "x")
      = objSet [] (jsTrim (strL "note")) (jsTrim (strL "x")) :=
  ⟨by decide, by decide, by decide, by decide,
   gff_attribute_parser_spec.2.2.2.1 [] (strL "note") (strL "x")
     (by decide) (by decide) (by decide) (by decide)⟩

lemma parseAttrPair_second_eq (obj : List (Str × Str)) (k v rest : Str)
    (hk : '=' ∉ k) (hv : '=' ∉ v) (hk0 : k ≠ []) (hv0 : v ≠ []) :
    parseAttrPair obj (k ++ '=' :: (v ++ '=' :: rest)) = objSet obj (jsTrim k) (jsTrim v) := by
  have hin : jsIncludesChar '=' (k ++ '=' :: (v ++ '=' :: rest)) = true :=
    jsIncludesChar_true _ _ (by simp)
  have hsplit : jsSplit '=' (k ++ '=' :: (v ++ '=' :: rest))
      = k :: v :: jsSplit '=' rest := by
    rw [jsSplit_append _ _ _ hk, jsSplit_append _ _ _ hv]
  simp [parseAttrPair, hin, hsplit, hk0, hv0]

/-- C8: when the value part of an attribute pair itself contains an equals
sign, only the text between the first and the second equals sign is
stored; note=a=b yields the entry (note, a). -/
theorem gff_attribute_value_truncated_at_second_eq :
    parseAttributes (strL "note=a=b") = [(strL "note", strL "a")] ∧
    (∀ obj k v rest, '=' ∉ k → '=' ∉ v → k ≠ [] → v ≠ [] →
      parseAttrPair obj (k ++ '=' :: (v ++ '=' :: rest)) = objSet obj (jsTrim k) (jsTrim v)) := by
  refine ⟨by decide, ?_⟩
  exact fun obj k v rest h1 h2 h3 h4 => parseAttrPair_second_eq obj k v rest h1 h2 h3 h4

theorem gff_attribute_value_truncated_at_second_eq_witness :
    ('=' ∉ strL "note") ∧ ('=' ∉ strL "a") ∧ strL "note" ≠ [] ∧ strL "a" ≠ [] ∧
    parseAttrPair [] (strL "note" ++ '=' :: (strL "a" ++ '=' :: strL "b"))
      = objSet [] (jsTrim (strL "note")) (jsTrim (strL "a")) :=
  ⟨by decide, by decide, by decide, by decide,
   gff_attribute_value_truncated_at_second_eq.2 [] (strL "note") (strL "a") (strL "b")
     (by decide) (by decide) (by decide) (by decide)⟩

/-- C6: in a GFF data line with at least nine tab-separated columns, a dot
in the score, strand or phase column is stored as null, and a start or
end column whose parseInt result is NaN or zero is stored as 1. -/
theorem gff_sentinel_dot_and_position_clamp :
    ∀ fileId line f, parseGffDataLine fileId line = some f →
      9 ≤ (jsSplit '\t' line).length ∧
      ((jsSplit '\t' line).getD 5 [] = strL "." → f.score = none) ∧
      ((jsSplit '\t' line).getD 5 [] ≠ strL "." → f.score = some ((jsSplit '\t' line).getD 5 [])) ∧
      ((jsSplit '\t' line).getD 6 [] = strL "." → f.strand = none) ∧
      ((jsSplit '\t' line).getD 7 [] = strL "." → f.phase = none) ∧
      ((jsParseInt ((jsSplit '\t' line).getD 3 []) = none ∨
        jsParseInt ((jsSplit '\t' line).getD 3 []) = some 0) → f.start = 1) ∧
      ((jsParseInt ((jsSplit '\t' line).getD 4 []) = none ∨
        jsParseInt ((jsSplit '\t' line).getD 4 []) = some 0) → f.end_pos = 1) := by
  intro fileId line f h
  unfold parseGffDataLine at h
  rcases hs : jsSplit '\t' line with
    _ | ⟨c0, _ | ⟨c1, _ | ⟨c2, _ | ⟨c3, _ | ⟨c4, _ | ⟨c5, _ | ⟨c6, _ | ⟨c7, _ | ⟨c8, t⟩⟩⟩⟩⟩⟩⟩⟩⟩ <;>
    rw [hs] at h <;> simp only [reduceCtorEq] at h
  obtain rfl := (Option.some.injEq _ _).mp h
  have e3 : ((c0 :: c1 :: c2 :: c3 :: c4 :: c5 :: c6 :: c7 :: c8 :: t).getD 3 ([] : Str)) = c3 := rfl
  have e4 : ((c0 :: c1 :: c2 :: c3 :: c4 :: c5 :: c6 :: c7 :: c8 :: t).getD 4 ([] : Str)) = c4 := rfl
  have e5 : ((c0 :: c1 :: c2 :: c3 :: c4 :: c5 :: c6 :: c7 :: c8 :: t).getD 5 ([] : Str)) = c5 := rfl
  have e6 : ((c0 :: c1 :: c2 :: c3 :: c4 :: c5 :: c6 :: c7 :: c8 :: t).getD 6 ([] : Str)) = c6 := rfl
  have e7 : ((c0 :: c1 :: c2 :: c3 :: c4 :: c5 :: c6 :: c7 :: c8 :: t).getD 7 ([] : Str)) = c7 := rfl
  rw [e3, e4, e5, e6, e7]
  refine ⟨by simp, ?_, ?_, ?_, ?_, ?_, ?_⟩ <;> intro hcond
  · rw [show strL "." = ['.'] from rfl] at hcond
    simp [hcond]
  · rw [show strL "." = ['.'] from rfl] at hcond
    simp [hcond]
  · rw [show strL "." = ['.'] from rfl] at hcond
    simp [hcond]
  · rw [show strL "." = ['.'] from rfl] at hcond
    simp [hcond]
  · simp only [jsParseIntOr1]
    rcases hcond with h0 | h0 <;> simp [h0]
  · simp only [jsParseIntOr1]
    rcases hcond with h0 | h0 <;> simp [h0]

/-- Concrete feature used to witness the sentinel-and-clamp theorem. -/
def gffWitnessFeature : GffFeature :=
  { file_id := 1, seqid := strL "a", source := strL "b", type := strL "c",
    start := 1, end_pos := 1, score := none, strand := some (strL "+"),
    phase := none, attributes := [(strL "ID", strL "g")] }

theorem gff_sentinel_dot_and_position_clamp_witness :
    parseGffDataLine 1 (strL "a\tb\tc\t0\tx\t.\t+\t.\tID=g") = some gffWitnessFeature ∧
    gffWitnessFeature.score = none ∧
    gffWitnessFeature.start = 1 ∧ gffWitnessFeature.end_pos = 1 :=
  ⟨by decide,
   (gff_sentinel_dot_and_position_clamp 1 (strL "a\tb\tc\t0\tx\t.\t+\t.\tID=g")
     gffWitnessFeature (by decide)).2.1 (by decide),
   (gff_sentinel_dot_and_position_clamp 1 (strL "a\tb\tc\t0\tx\t.\t+\t.\tID=g")
     gffWitnessFeature (by decide)).2.2.2.2.2.1 (Or.inr (by decide)),
   (gff_sentinel_dot_and_position_clamp 1 (strL "a\tb\tc\t0\tx\t.\t+\t.\tID=g")
     gffWitnessFeature (by decide)).2.2.2.2.2.2 (Or.inl (by decide))⟩

/-- C9: in both TSV importers, an empty locus_tag, gene or product column
is stored as null, while sequence_id, feature_type and strand are stored
verbatim, empty or not. -/
theorem tsv_empty_optional_columns_null :
    ∀ gid line rp rs,
      parseTsvLinePg gid line = some rp →
      parseTsvLineSqlite gid line = some rs →
      ((jsSplit '\t' line).getD 5 [] = [] → rp.locus_tag = none ∧ rs.locus_tag = none) ∧
      ((jsSplit '\t' line).getD 6 [] = [] → rp.gene = none ∧ rs.gene = none) ∧
      ((jsSplit '\t' line).getD 7 [] = [] → rp.product = none ∧ rs.product = none) ∧
      rp.sequence_id = (jsSplit '\t' line).getD 0 [] ∧
      rs.sequence_id = (jsSplit '\t' line).getD 0 [] ∧
      rp.feature_type = (jsSplit '\t' line).getD 1 [] ∧
      rs.feature_type = (jsSplit '\t' line).getD 1 [] ∧
      rp.strand = (jsSplit '\t' line).getD 4 [] ∧
      rs.strand = (jsSplit '\t' line).getD 4 [] := by
  intro gid line rp rs hp hs
  unfold parseTsvLinePg at hp
  unfold parseTsvLineSqlite at hs
  by_cases hlen : (jsSplit '\t' line).length < 8
  · simp [hlen] at hp
  · simp only [hlen, if_false] at hp hs
    obtain rfl := (Option.some.injEq _ _).mp hp
    obtain rfl := (Option.some.injEq _ _).mp hs
    refine ⟨?_, ?_, ?_, rfl, rfl, rfl, rfl, rfl, rfl⟩ <;>
      intro hcond <;> rw [List.getD, List.get?_eq_getElem?] at hcond <;>
      simp [jsOrNullStr, hcond]

theorem tsv_empty_optional_columns_null_witness :
    parseTsvLinePg 1 (strL "s\tCDS\t1\t9\t+\t\t\t")
      = some { genome_id := 1, sequence_id := strL "s", feature_type := strL "CDS",
               start_position := some 1, stop_position := some 9, strand := strL "+",
               locus_tag := none, gene := none, product := none, dbxrefs := none } ∧
    parseTsvLineSqlite 1 (strL "s\tCDS\t1\t9\t+\t\t\t")
      = some { genome_id := 1, sequence_id := strL "s", feature_type := strL "CDS",
               start_position := some 1, stop_position := some 9, strand := strL "+",
               locus_tag := none, gene := none, product := none, dbxrefs := none } ∧
    ((none : Option Str) = none ∧ (none : Option Str) = none) :=
  ⟨by decide, by decide,
   (tsv_empty_optional_columns_null 1 (strL "s\tCDS\t1\t9\t+\t\t\t")
     { genome_id := 1, sequence_id := strL "s", feature_type := strL "CDS",
       start_position := some 1, stop_position := some 9, strand := strL "+",
       locus_tag := none, gene := none, product := none, dbxrefs := none }
     { genome_id := 1, sequence_id := strL "s", feature_type := strL "CDS",
       start_position := some 1, stop_position := some 9, strand := strL "+",
       locus_tag := none, gene := none, product := none, dbxrefs := none }
     (by decide) (by decide)).1 (by decide)⟩

/-- Empty database of the JSON importer, with all serial sequences at 1. -/
def emptyJsonDb : JsonDb :=
  ⟨[], [], [], [], [], [], [], [], [], [], [], [], 1, 1, 1, 1, 1⟩

/-- C10: a JSON file whose parsed content has no features key, or whose
features value is not an array, performs no database writes at all — the
warning branch returns before the genome insert. -/
theorem json_missing_features_no_writes :
    ∀ db fileName j failAt,
      (jGet j (strL "features") = none ∨
        (∀ v, jGet j (strL "features") = some v → v.isArr = false)) →
      processJsonFile db fileName j failAt = (db, JsonOutcome.warnedNoFeatures) := by
  intro db fileName j failAt h
  unfold processJsonFile
  rcases hv : jGet j (strL "features") with _ | v
  · simp
  · rcases h with h | h
    · rw [hv] at h
      exact absurd h (by simp)
    · have harr : v.isArr = false := h v hv
      have hbad : (!v.truthy || !v.isArr) = true := by simp [harr]
      rcases v with _ | b | n | s | xs | fields <;> simp_all [Json.isArr]

theorem json_missing_features_no_writes_witness :
    jGet (Json.obj []) (strL "features") = none ∧
    processJsonFile emptyJsonDb (strL "a.json") (Json.obj []) none
      = (emptyJsonDb, JsonOutcome.warnedNoFeatures) :=
  ⟨rfl, json_missing_features_no_writes emptyJsonDb (strL "a.json") (Json.obj []) none
    (Or.inl rfl)⟩

lemma foldl_execOp_write {δ ω : Type} (applyW : δ → ω → δ) (ws : List ω) (cdb p : δ) :
    (ws.map SqlOp.write).foldl (execOp applyW) ⟨cdb, some p⟩
      = ⟨cdb, some (ws.foldl applyW p)⟩ := by
  induction ws generalizing p with
  | nil => rfl
  | cons w wt ih =>
    simp only [List.map_cons, List.foldl_cons, execOp]
    exact ih (applyW p w)

lemma execOps_writes_rollback {δ ω : Type} (applyW : δ → ω → δ) (db : δ) (ws : List ω) :
    execOps applyW db (SqlOp.beginTx :: ws.map SqlOp.write ++ [SqlOp.rollbackTx]) = db := by
  unfold execOps
  simp only [List.foldl_cons, List.foldl_append,
    show execOp applyW ⟨db, none⟩ SqlOp.beginTx = ⟨db, some db⟩ from rfl,
    foldl_execOp_write]
  rfl

lemma execOps_writes_commit {δ ω : Type} (applyW : δ → ω → δ) (db : δ) (ws : List ω) :
    execOps applyW db (SqlOp.beginTx :: ws.map SqlOp.write ++ [SqlOp.commitTx])
      = ws.foldl applyW db := by
  unfold execOps
  simp only [List.foldl_cons, List.foldl_append,
    show execOp applyW ⟨db, none⟩ SqlOp.beginTx = ⟨db, some db⟩ from rfl,
    foldl_execOp_write]
  rfl

/-- C2 (amended): in the two TSV importers every write of a file sits
between BEGIN and COMMIT, so a file whose import fails at any write leaves
the visible database exactly as it was (the catch block rolls back). -/
theorem tsv_failed_file_leaves_db_unchanged :
    ∀ (db : TsvDb) (dbs : SqliteDb) (fn fp content : Str) (k k2 : Nat),
      (k < (tsvWritesPg db fn fp content).length →
        (processTsvFilePg db fn fp content (some k)).db = db ∧
        (processTsvFilePg db fn fp content (some k)).errored = true) ∧
      (k2 < (sqliteWrites dbs fn fp content).length →
        (processSqliteFile dbs fn fp content (some k2)).db = dbs ∧
        (processSqliteFile dbs fn fp content (some k2)).errored = true) := by
  intro db dbs fn fp content k k2
  constructor
  · intro hk
    unfold processTsvFilePg
    simp only [hk, if_true]
    exact ⟨execOps_writes_rollback applyTsvWrite db _, trivial⟩
  · intro hk
    unfold processSqliteFile
    simp only [hk, if_true]
    exact ⟨execOps_writes_rollback applySqliteWrite dbs _, trivial⟩

/-- Empty database of the PostgreSQL TSV importer. -/
def emptyTsvDb : TsvDb := ⟨[], [], 1⟩

/-- Empty database of the SQLite TSV importer. -/
def emptySqliteDb : SqliteDb := ⟨[], [], 1⟩

theorem tsv_failed_file_leaves_db_unchanged_witness :
    0 < (tsvWritesPg emptyTsvDb (strL "a.tsv") (strL "/d/a.tsv") (strL "x\ty")).length ∧
    (processTsvFilePg emptyTsvDb (strL "a.tsv") (strL "/d/a.tsv") (strL "x\ty") (some 0)).db
      = emptyTsvDb :=
  ⟨by decide,
   ((tsv_failed_file_leaves_db_unchanged emptyTsvDb emptySqliteDb (strL "a.tsv")
      (strL "/d/a.tsv") (strL "x\ty") 0 0).1 (by decide)).1⟩

/-- C2 counterexample: the JSON importer runs without a transaction (its
BEGIN/COMMIT/ROLLBACK calls are commented out), so a file failing on its
second feature insert leaves the genome row and the first feature visible. -/
theorem json_failed_file_leaves_partial_rows :
    (processJsonFile emptyJsonDb (strL "x.json")
        (Json.obj [(strL "features", Json.arr [Json.obj [], Json.obj []])]) (some 2)).2
      = JsonOutcome.errored ∧
    (processJsonFile emptyJsonDb (strL "x.json")
        (Json.obj [(strL "features", Json.arr [Json.obj [], Json.obj []])]) (some 2)).1.genomes.length
      = 1 ∧
    (processJsonFile emptyJsonDb (strL "x.json")
        (Json.obj [(strL "features", Json.arr [Json.obj [], Json.obj []])]) (some 2)).1.features.length
      = 1 ∧
    emptyJsonDb.genomes.length = 0 ∧ emptyJsonDb.features.length = 0 := by
  refine ⟨rfl, rfl, rfl, rfl, rfl⟩

/-- Empty database of the GFF importer, sequences at 1. -/
def emptyGffDb : GffDb := ⟨[], [], [], 1, 1⟩

/-- C7 counterexample: a GFF folder run over a folder with no matching
file completes normally (no exit code 1), with no database writes. -/
theorem gff_empty_folder_completes_normally :
    (processGffFolder emptyGffDb (strL "/d") [(strL "readme.txt", strL "", 0)]
        (fun _ => false)).exitCode = none ∧
    (processGffFolder emptyGffDb (strL "/d") [(strL "readme.txt", strL "", 0)]
        (fun _ => false)).db = emptyGffDb ∧
    (processGffFolder emptyGffDb (strL "/d") [(strL "readme.txt", strL "", 0)]
        (fun _ => false)).processedCount = 0 ∧
    ([(strL "readme.txt", strL "", 0)].filter (fun f => isGffFile f.1)) = [] := by
  refine ⟨rfl, by decide, rfl, by decide⟩

/-- C7 (amended): over a folder with no matching files, the TSV importers
exit with code 1 and leave the database untouched, while the GFF importer
and the JSON importer complete normally with no database writes (the JSON
importer logging its zero-count completion). -/
theorem empty_folder_runs :
    ∀ (dbt : TsvDb) (dbs : SqliteDb) (dbg : GffDb) (dbj : JsonDb)
      (folder pattern : Str) (files : List (Str × Str))
      (filesG : List (Str × Str × Nat)) (filesJ : List (Str × Json))
      (failAt : Str → Option Nat) (fails : Str → Bool) (failJ : Str → Option Nat),
      ((tsvMatches pattern files).length = 0 →
        mainTsvPg dbt folder pattern files failAt = ⟨dbt, 0, some 1, none⟩) ∧
      ((tsvMatches pattern files).length = 0 →
        mainSqlite dbs folder pattern files failAt = ⟨dbs, 0, some 1, none⟩) ∧
      (filesG.filter (fun f => isGffFile f.1) = [] →
        processGffFolder dbg folder filesG fails = ⟨dbg, 0, none⟩) ∧
      (filesJ.filter (fun f => jsEndsWith (strL ".json") (jsToLower f.1)) = [] →
        processJsonDirectory dbj filesJ failJ = ⟨dbj, 0, true⟩) := by
  intro dbt dbs dbg dbj folder pattern files filesG filesJ failAt fails failJ
  refine ⟨?_, ?_, ?_, ?_⟩
  · intro h
    simp [mainTsvPg, h]
  · intro h
    simp [mainSqlite, h]
  · intro h
    simp [processGffFolder, h]
  · intro h
    simp [processJsonDirectory, h]

theorem empty_folder_runs_witness :
    (tsvMatches (strL ".tsv") [(strL "readme.txt", strL "")]).length = 0 ∧
    mainTsvPg emptyTsvDb (strL "/d") (strL ".tsv") [(strL "readme.txt", strL "")]
        (fun _ => none)
      = ⟨emptyTsvDb, 0, some 1, none⟩ :=
  ⟨by decide,
   (empty_folder_runs emptyTsvDb emptySqliteDb emptyGffDb emptyJsonDb (strL "/d")
      (strL ".tsv") [(strL "readme.txt", strL "")] [] [] (fun _ => none) (fun _ => false)
      (fun _ => none)).1 (by decide)⟩

/-- C5 counterexample: in import-tsv.mjs a failing first file aborts the
whole run with exit code 1 — the second matching file is never processed
and no tally is printed. -/
theorem tsv_run_stops_at_first_failure :
    (mainTsvPg emptyTsvDb (strL "/d") (strL ".tsv")
        [(strL "a.tsv", strL "x"), (strL "b.tsv", strL "y")]
        (fun n => if n == strL "a.tsv" then some 0 else none)).processedCount = 1 ∧
    (mainTsvPg emptyTsvDb (strL "/d") (strL ".tsv")
        [(strL "a.tsv", strL "x"), (strL "b.tsv", strL "y")]
        (fun n => if n == strL "a.tsv" then some 0 else none)).exitCode = some 1 ∧
    (mainTsvPg emptyTsvDb (strL "/d") (strL ".tsv")
        [(strL "a.tsv", strL "x"), (strL "b.tsv", strL "y")]
        (fun n => if n == strL "a.tsv" then some 0 else none)).tally = none ∧
    (tsvMatches (strL ".tsv")
        [(strL "a.tsv", strL "x"), (strL "b.tsv", strL "y")]).length = 2 := by
  refine ⟨by decide, by decide, by decide, by decide⟩

lemma mainSqliteLoop_spec (failAt : Str → Option Nat) (folder : Str) :
    ∀ (fs : List (Str × Str)) (db : SqliteDb) (s e p : Nat),
      (mainSqliteLoop failAt folder db s e p fs).processedCount = p + fs.length ∧
      (mainSqliteLoop failAt folder db s e p fs).exitCode = none ∧
      ∃ s2 e2, (mainSqliteLoop failAt folder db s e p fs).tally = some (s2, e2) ∧
        s2 + e2 = s + e + fs.length := by
  intro fs
  induction fs with
  | nil =>
    intro db s e p
    exact ⟨rfl, rfl, s, e, rfl, rfl⟩
  | cons f ft ih =>
    intro db s e p
    rcases f with ⟨name, content⟩
    simp only [mainSqliteLoop]
    split
    · obtain ⟨h1, h2, s2, e2, h3, h4⟩ := ih _ s (e + 1) (p + 1)
      refine ⟨by rw [h1, List.length_cons]; omega, h2, s2, e2, h3,
        by rw [List.length_cons]; omega⟩
    · obtain ⟨h1, h2, s2, e2, h3, h4⟩ := ih _ (s + 1) e (p + 1)
      refine ⟨by rw [h1, List.length_cons]; omega, h2, s2, e2, h3,
        by rw [List.length_cons]; omega⟩

/-- C5 (amended): the SQLite importer attempts every matching file and
reports a success/failure tally summing to the file count, while the
PostgreSQL TSV importer stops the run at the first failing file with exit
code 1 and no tally. -/
theorem folder_run_failure_handling :
    ∀ (dbs : SqliteDb) (dbt : TsvDb) (folder pattern : Str) (files : List (Str × Str))
      (failAt : Str → Option Nat) (m : Str × Str) (rest : List (Str × Str)),
      ((tsvMatches pattern files).length ≠ 0 →
        (mainSqlite dbs folder pattern files failAt).processedCount
            = (tsvMatches pattern files).length ∧
        (mainSqlite dbs folder pattern files failAt).exitCode = none ∧
        ∃ s e, (mainSqlite dbs folder pattern files failAt).tally = some (s, e) ∧
          s + e = (tsvMatches pattern files).length) ∧
      (tsvMatches pattern files = m :: rest →
        (processTsvFilePg dbt m.1 (pathJoin folder m.1) m.2 (failAt m.1)).errored = true →
        mainTsvPg dbt folder pattern files failAt
          = ⟨(processTsvFilePg dbt m.1 (pathJoin folder m.1) m.2 (failAt m.1)).db,
             1, some 1, none⟩) := by
  intro dbs dbt folder pattern files failAt m rest
  constructor
  · intro h
    unfold mainSqlite
    simp only [h, if_false]
    obtain ⟨h1, h2, s2, e2, h3, h4⟩ :=
      mainSqliteLoop_spec failAt folder (tsvMatches pattern files) dbs 0 0 0
    exact ⟨by rw [h1]; omega, h2, s2, e2, h3, by omega⟩
  · intro hm herr
    unfold mainTsvPg
    rw [hm]
    rcases m with ⟨name, content⟩
    simp only [List.length_cons, mainTsvPgLoop, herr, if_true]
    simp [mainTsvPgLoop, herr]

theorem folder_run_failure_handling_witness :
    (tsvMatches (strL ".tsv") [(strL "a.tsv", strL "x")]).length ≠ 0 ∧
    (mainSqlite emptySqliteDb (strL "/d") (strL ".tsv") [(strL "a.tsv", strL "x")]
        (fun _ => none)).processedCount = 1 :=
  ⟨by decide,
   ((folder_run_failure_handling emptySqliteDb emptyTsvDb (strL "/d") (strL ".tsv")
      [(strL "a.tsv", strL "x")] (fun _ => none) (strL "a.tsv", strL "x") []).1
      (by decide)).1.trans (by decide)⟩

/-- Per-line feature production of processGffFile: blank and comment lines
produce no feature, other lines go through the data-line parser. -/
def gffDataLine? (fid : Nat) (line : Str) : Option GffFeature :=
  if (jsTrim line).isEmpty then none
  else if jsStartsWith (strL "#") line then none
  else parseGffDataLine fid line

/-- Lines the GFF importer actually counts: non-blank, non-comment, at
least nine tab-separated columns. -/
def gffCountedLine (line : Str) : Bool :=
  !(jsTrim line).isEmpty && !jsStartsWith (strL "#") line &&
    decide (9 ≤ (jsSplit '\t' line).length)

/-- Counting rule stated by the spec: non-comment, non-blank lines with at
least eight tab-separated columns (for comparison with what the importers
log). -/
def specCountedLine (line : Str) : Bool :=
  !jsStartsWith (strL "#") line && !(jsTrim line).isEmpty &&
    decide (8 ≤ (jsSplit '\t' line).length)

lemma parseGffDataLine_isSome (fid : Nat) (line : Str) :
    (parseGffDataLine fid line).isSome = decide (9 ≤ (jsSplit '\t' line).length) := by
  unfold parseGffDataLine
  rcases hs : jsSplit '\t' line with
    _ | ⟨c0, _ | ⟨c1, _ | ⟨c2, _ | ⟨c3, _ | ⟨c4, _ | ⟨c5, _ | ⟨c6, _ | ⟨c7, _ | ⟨c8, t⟩⟩⟩⟩⟩⟩⟩⟩⟩ <;>
    simp [List.length_cons]

lemma parseGffDataLine_fid (fid : Nat) (line : Str) (f : GffFeature)
    (h : parseGffDataLine fid line = some f) : f.file_id = fid := by
  unfold parseGffDataLine at h
  rcases hs : jsSplit '\t' line with
    _ | ⟨c0, _ | ⟨c1, _ | ⟨c2, _ | ⟨c3, _ | ⟨c4, _ | ⟨c5, _ | ⟨c6, _ | ⟨c7, _ | ⟨c8, t⟩⟩⟩⟩⟩⟩⟩⟩⟩ <;>
    rw [hs] at h <;> simp only [reduceCtorEq] at h
  obtain rfl := (Option.some.injEq _ _).mp h
  rfl

lemma gffDataLine?_isSome (fid : Nat) (line : Str) :
    (gffDataLine? fid line).isSome = gffCountedLine line := by
  unfold gffDataLine? gffCountedLine
  by_cases h1 : (jsTrim line).isEmpty <;> by_cases h2 : jsStartsWith (strL "#") line <;>
    simp [h1, h2, parseGffDataLine_isSome]

lemma length_filterMap_eq_length_filter {α β : Type} (f : α → Option β) (p : α → Bool)
    (h : ∀ a, (f a).isSome = p a) (ls : List α) :
    (ls.filterMap f).length = (ls.filter p).length := by
  induction ls with
  | nil => rfl
  | cons a t ih =>
    rcases hf : f a with _ | b
    · have hp : p a = false := by rw [← h a, hf]; rfl
      simp [List.filterMap_cons, List.filter_cons, hf, hp, ih]
    · have hp : p a = true := by rw [← h a, hf]; rfl
      simp [List.filterMap_cons, List.filter_cons, hf, hp, ih]

lemma gffHeaderStep_preserves (st : GffRunState) (line : Str) :
    (gffHeaderStep st line).fileId = st.fileId ∧
    (gffHeaderStep st line).batch = st.batch ∧
    (gffHeaderStep st line).insertedFeatures = st.insertedFeatures ∧
    (gffHeaderStep st line).featureCount = st.featureCount ∧
    (gffHeaderStep st line).db.gff_features = st.db.gff_features := by
  unfold gffHeaderStep
  (repeat' split) <;>
    first
    | (simp [updateFileRow]; done)
    | (by_cases h4 : 4 ≤ (jsSplit ' ' line).length <;> simp [h4, updateFileRow])

lemma gffHeaderStep_fileId (st : GffRunState) (line : Str) :
    (gffHeaderStep st line).fileId = st.fileId := (gffHeaderStep_preserves st line).1

lemma gffHeaderStep_batch (st : GffRunState) (line : Str) :
    (gffHeaderStep st line).batch = st.batch := (gffHeaderStep_preserves st line).2.1

lemma gffHeaderStep_insertedFeatures (st : GffRunState) (line : Str) :
    (gffHeaderStep st line).insertedFeatures = st.insertedFeatures :=
  (gffHeaderStep_preserves st line).2.2.1

lemma gffHeaderStep_featureCount (st : GffRunState) (line : Str) :
    (gffHeaderStep st line).featureCount = st.featureCount :=
  (gffHeaderStep_preserves st line).2.2.2.1

lemma gffHeaderStep_features (st : GffRunState) (line : Str) :
    (gffHeaderStep st line).db.gff_features = st.db.gff_features :=
  (gffHeaderStep_preserves st line).2.2.2.2

lemma gffLineStep_fileId (st : GffRunState) (line : Str) :
    (gffLineStep st line).fileId = st.fileId := by
  unfold gffLineStep
  by_cases h1 : (jsTrim line).isEmpty
  · simp [h1]
  · by_cases h2 : jsStartsWith (strL "#") line
    · simp [h1, h2, gffHeaderStep_fileId]
    · simp only [h1, h2, Bool.false_eq_true, if_false]
      rcases hp : parseGffDataLine st.fileId line with _ | f
      · simp [hp]
      · simp only [hp]
        split <;> simp [gffFlushBatch]

lemma gffLineStep_featlog (st : GffRunState) (line : Str) :
    (gffLineStep st line).insertedFeatures ++ (gffLineStep st line).batch
      = (st.insertedFeatures ++ st.batch) ++ (gffDataLine? st.fileId line).toList := by
  unfold gffLineStep gffDataLine?
  by_cases h1 : (jsTrim line).isEmpty
  · simp [h1]
  · by_cases h2 : jsStartsWith (strL "#") line
    · simp [h1, h2, gffHeaderStep_insertedFeatures, gffHeaderStep_batch]
    · simp only [h1, h2, Bool.false_eq_true, if_false]
      rcases hp : parseGffDataLine st.fileId line with _ | f
      · simp [hp]
      · simp only [hp]
        split <;> simp [gffFlushBatch]

lemma gffLineStep_features (st : GffRunState) (line : Str) (C : List GffFeature)
    (h : st.db.gff_features = C ++ st.insertedFeatures) :
    (gffLineStep st line).db.gff_features = C ++ (gffLineStep st line).insertedFeatures := by
  unfold gffLineStep
  by_cases h1 : (jsTrim line).isEmpty
  · simpa [h1] using h
  · by_cases h2 : jsStartsWith (strL "#") line
    · simpa [h1, h2, gffHeaderStep_insertedFeatures, gffHeaderStep_features] using h
    · simp only [h1, h2, Bool.false_eq_true, if_false]
      rcases hp : parseGffDataLine st.fileId line with _ | f
      · simpa [hp] using h
      · simp only [hp]
        split <;> simp [gffFlushBatch, h]

lemma gffLineStep_featcount (st : GffRunState) (line : Str) :
    (gffLineStep st line).featureCount
      = st.featureCount + (gffDataLine? st.fileId line).toList.length := by
  unfold gffLineStep gffDataLine?
  by_cases h1 : (jsTrim line).isEmpty
  · simp [h1]
  · by_cases h2 : jsStartsWith (strL "#") line
    · simp [h1, h2, gffHeaderStep_featureCount]
    · simp only [h1, h2, Bool.false_eq_true, if_false]
      rcases hp : parseGffDataLine st.fileId line with _ | f
      · simp [hp]
      · simp only [hp]
        split <;> simp [gffFlushBatch]

lemma gffLineStep_featfid (st : GffRunState) (line : Str)
    (h : ∀ f ∈ st.insertedFeatures ++ st.batch, f.file_id = st.fileId) :
    ∀ f ∈ (gffLineStep st line).insertedFeatures ++ (gffLineStep st line).batch,
      f.file_id = st.fileId := by
  intro f hf
  rw [gffLineStep_featlog] at hf
  rcases List.mem_append.mp hf with hf1 | hf1
  · exact h f hf1
  · rcases hp : gffDataLine? st.fileId line with _ | g
    · rw [hp] at hf1
      simp at hf1
    · rw [hp] at hf1
      simp at hf1
      subst hf1
      unfold gffDataLine? at hp
      by_cases h1 : (jsTrim line).isEmpty
      · simp [h1] at hp
      · by_cases h2 : jsStartsWith (strL "#") line
        · simp [h1, h2] at hp
        · simp only [h1, h2, Bool.false_eq_true, if_false] at hp
          exact parseGffDataLine_fid _ _ _ hp

lemma gffFold_fileId (lines : List Str) :
    ∀ st : GffRunState, (lines.foldl gffLineStep st).fileId = st.fileId := by
  induction lines with
  | nil => intro st; rfl
  | cons l ls ih =>
    intro st
    rw [List.foldl_cons, ih, gffLineStep_fileId]

lemma gffFold_features (lines : List Str) :
    ∀ (st : GffRunState) (C : List GffFeature),
      st.db.gff_features = C ++ st.insertedFeatures →
      (lines.foldl gffLineStep st).db.gff_features
        = C ++ (lines.foldl gffLineStep st).insertedFeatures := by
  induction lines with
  | nil => intro st C h; exact h
  | cons l ls ih =>
    intro st C h
    rw [List.foldl_cons]
    exact ih _ C (gffLineStep_features st l C h)

lemma gffFold_featlog (lines : List Str) :
    ∀ st : GffRunState,
      (lines.foldl gffLineStep st).insertedFeatures ++ (lines.foldl gffLineStep st).batch
        = (st.insertedFeatures ++ st.batch) ++ lines.filterMap (gffDataLine? st.fileId) := by
  induction lines with
  | nil => intro st; simp
  | cons l ls ih =>
    intro st
    rw [List.foldl_cons, ih, gffLineStep_fileId, gffLineStep_featlog,
      List.filterMap_cons]
    rcases gffDataLine? st.fileId l with _ | f <;> simp

lemma gffFold_featcount (lines : List Str) :
    ∀ st : GffRunState,
      (lines.foldl gffLineStep st).featureCount
        = st.featureCount + (lines.filterMap (gffDataLine? st.fileId)).length := by
  induction lines with
  | nil => intro st; simp
  | cons l ls ih =>
    intro st
    rw [List.foldl_cons, ih, gffLineStep_fileId, gffLineStep_featcount,
      List.filterMap_cons]
    rcases gffDataLine? st.fileId l with _ | f <;> simp <;> omega

lemma gffFold_featfid (lines : List Str) :
    ∀ st : GffRunState,
      (∀ f ∈ st.insertedFeatures ++ st.batch, f.file_id = st.fileId) →
      ∀ f ∈ (lines.foldl gffLineStep st).insertedFeatures ++ (lines.foldl gffLineStep st).batch,
        f.file_id = st.fileId := by
  induction lines with
  | nil => intro st h; exact h
  | cons l ls ih =>
    intro st h
    rw [List.foldl_cons]
    have h2 := gffLineStep_featfid st l h
    rw [← gffLineStep_fileId st l] at h2
    have h3 := ih _ h2
    rw [gffLineStep_fileId st l] at h3
    exact h3

/-- Invariant of the line loop relating the sequence_regions table to the
ghost log: the table is the untouched prefix C (no row of the current
file, all ids below every log id) followed by the rows of this run. -/
def GffRegionInv (C : List SeqRegionRow) (st : GffRunState) : Prop :=
  st.db.sequence_regions = C ++ st.insertedRegions ∧
  (∀ r ∈ C, r.file_id ≠ st.fileId) ∧
  (∀ r ∈ st.insertedRegions, r.file_id = st.fileId) ∧
  (∀ r ∈ C, r.region_id < st.db.next_region_id) ∧
  (∀ r ∈ st.insertedRegions, r.region_id < st.db.next_region_id) ∧
  (∀ c ∈ C, ∀ l ∈ st.insertedRegions, c.region_id < l.region_id)

lemma gffHeaderStep_regions (st : GffRunState) (line : Str) (C : List SeqRegionRow)
    (h : GffRegionInv C st) : GffRegionInv C (gffHeaderStep st line) := by
  obtain ⟨h1, h2, h3, h4, h5, h6⟩ := h
  unfold gffHeaderStep
  split_ifs with hc1 hc2 hc3 hc4 hc5 hc6 hc7
  · exact ⟨h1, h2, h3, h4, h5, h6⟩
  · exact ⟨h1, h2, h3, h4, h5, h6⟩
  · exact ⟨h1, h2, h3, h4, h5, h6⟩
  · exact ⟨h1, h2, h3, h4, h5, h6⟩
  · exact ⟨h1, h2, h3, h4, h5, h6⟩
  · -- the sequence-region insert
    by_cases hlen : (jsSplit ' ' line).length ≥ 4
    · simp only [hlen, if_true]
      refine ⟨?_, h2, ?_, ?_, ?_, ?_⟩
      · simp [h1]
      · intro r hr
        rcases List.mem_append.mp hr with hr1 | hr1
        · exact h3 r hr1
        · simp at hr1
          subst hr1
          rfl
      · intro r hr
        exact Nat.lt_succ_of_lt (h4 r hr)
      · intro r hr
        rcases List.mem_append.mp hr with hr1 | hr1
        · exact Nat.lt_succ_of_lt (h5 r hr1)
        · simp at hr1
          subst hr1
          exact Nat.lt_succ_self _
      · intro c hc l hl
        rcases List.mem_append.mp hl with hl1 | hl1
        · exact h6 c hc l hl1
        · simp at hl1
          subst hl1
          exact h4 c hc
    · simp only [hlen, if_false]
      exact ⟨h1, h2, h3, h4, h5, h6⟩
  · -- the species update
    rcases hurl : speciesUrlOf line with _ | url
    · exact ⟨h1, h2, h3, h4, h5, h6⟩
    · rcases hmax : maxRegionId st.db st.fileId with _ | m
      · exact ⟨h1, h2, h3, h4, h5, h6⟩
      · have hmem : m ∈ (st.db.sequence_regions.filter
            (fun r => r.file_id == st.fileId)).map (fun r => r.region_id) := by
          unfold maxRegionId at hmax
          exact List.max?_mem (fun a b => max_choice a b) hmax
        obtain ⟨r0, hr0mem, hr0id⟩ := List.mem_map.mp hmem
        have hr0 : r0 ∈ st.insertedRegions := by
          have hin := List.mem_filter.mp hr0mem
          rw [h1] at hin
          rcases List.mem_append.mp hin.1 with hA | hA
          · exact absurd (by simpa using hin.2) (h2 r0 hA)
          · exact hA
        refine ⟨?_, h2, ?_, ?_, ?_, ?_⟩
        · show st.db.sequence_regions.map _ = C ++ st.insertedRegions.map _
          rw [h1, List.map_append]
          have hCfix : C.map (fun r =>
              if r.region_id == m then { r with species_url := some url } else r) = C := by
            refine (List.map_congr_left ?_).trans (List.map_id C)
            intro c hc
            have hlt : c.region_id < m := hr0id ▸ h6 c hc r0 hr0
            simp [Nat.ne_of_lt hlt]
          rw [hCfix]
        · intro r hr
          obtain ⟨r1, hr1, hre⟩ := List.mem_map.mp hr
          subst hre
          split <;> exact h3 r1 hr1
        · exact h4
        · intro r hr
          obtain ⟨r1, hr1, hre⟩ := List.mem_map.mp hr
          subst hre
          split
          · exact h5 r1 hr1
          · exact h5 r1 hr1
        · intro c hc l hl
          obtain ⟨l1, hl1, hle⟩ := List.mem_map.mp hl
          subst hle
          split
          · exact h6 c hc l1 hl1
          · exact h6 c hc l1 hl1
  · exact ⟨h1, h2, h3, h4, h5, h6⟩

lemma gffLineStep_regions (st : GffRunState) (line : Str) (C : List SeqRegionRow)
    (h : GffRegionInv C st) : GffRegionInv C (gffLineStep st line) := by
  unfold gffLineStep
  obtain ⟨h1, h2, h3, h4, h5, h6⟩ := h
  by_cases hb : (jsTrim line).isEmpty
  · simpa [hb] using ⟨h1, h2, h3, h4, h5, h6⟩
  · by_cases hh : jsStartsWith (strL "#") line
    · simp only [hb, hh, Bool.false_eq_true, if_false, if_true]
      exact gffHeaderStep_regions _ line C ⟨h1, h2, h3, h4, h5, h6⟩
    · simp only [hb, hh, Bool.false_eq_true, if_false]
      rcases hp : parseGffDataLine st.fileId line with _ | f
      · exact ⟨h1, h2, h3, h4, h5, h6⟩
      · simp only []
        split <;> exact ⟨h1, h2, h3, h4, h5, h6⟩

lemma gffFold_regions (lines : List Str) :
    ∀ (st : GffRunState) (C : List SeqRegionRow),
      GffRegionInv C st → GffRegionInv C (lines.foldl gffLineStep st) := by
  induction lines with
  | nil => intro st C h; exact h
  | cons l ls ih =>
    intro st C h
    rw [List.foldl_cons]
    exact ih _ C (gffLineStep_regions st l C h)

lemma gffFlushBatch_regions (st : GffRunState) (C : List SeqRegionRow)
    (h : GffRegionInv C st) : GffRegionInv C (gffFlushBatch st) := h

/-- C1 (amended, GFF importer): re-importing a file whose name already has
a gff_files row wipes and rebuilds exactly the features and
sequence regions of that row: afterwards the features filed under the existing file id
are exactly those parsed from the new content, and the sequence regions
filed under it are exactly the ones this run inserted. -/
theorem gff_reimport_replaces_rows :
    ∀ (db : GffDb) (fileName filePath : Str) (fileSize : Nat) (content : Str) (r : GffFileRow),
      db.gff_files.find? (fun row => row.filename == fileName) = some r →
      (∀ reg ∈ db.sequence_regions, reg.region_id < db.next_region_id) →
      ((processGffFile db fileName filePath fileSize content).db.gff_features.filter
          (fun f => f.file_id == r.file_id)
        = (jsSplit '\n' content).filterMap (gffDataLine? r.file_id)) ∧
      ((processGffFile db fileName filePath fileSize content).db.sequence_regions.filter
          (fun s => s.file_id == r.file_id)
        = (processGffFile db fileName filePath fileSize content).insertedRegions) ∧
      (∀ s ∈ (processGffFile db fileName filePath fileSize content).insertedRegions,
        s.file_id = r.file_id) := by
  intro db fn fp sz content r hfind hwf
  unfold processGffFile
  rw [hfind]
  simp only []
  set fid := r.file_id with hfid
  set db1 : GffDb := updateFileRow
    { db with
      gff_features := db.gff_features.filter (fun f => !(f.file_id == fid))
      sequence_regions := db.sequence_regions.filter (fun s => !(s.file_id == fid)) }
    fid (fun row => { row with original_path := fp, file_size := sz }) with hdb1
  set st0 : GffRunState := ⟨db1, fid, 0, 0, 0, [], [], []⟩ with hst0
  set st := (jsSplit '\n' content).foldl gffLineStep st0 with hst
  have hfoldfid : st.fileId = fid := by
    rw [hst]
    exact gffFold_fileId _ st0
  -- features invariant through the fold
  have hCF : st0.db.gff_features
      = db.gff_features.filter (fun f => !(f.file_id == fid)) ++ st0.insertedFeatures := by
    simp [hst0, hdb1, updateFileRow]
  have hfeat := gffFold_features (jsSplit '\n' content) st0 _ hCF
  have hlog := gffFold_featlog (jsSplit '\n' content) st0
  rw [← hst] at hfeat hlog
  simp only [hst0] at hlog
  rw [List.nil_append, List.nil_append] at hlog
  have hfid2 := gffFold_featfid (jsSplit '\n' content) st0 (by simp [hst0])
  rw [← hst] at hfid2
  -- regions invariant through the fold
  have hinv0 : GffRegionInv (db.sequence_regions.filter (fun s => !(s.file_id == fid))) st0 := by
    refine ⟨by simp [hst0, hdb1, updateFileRow], ?_, ?_, ?_, ?_, ?_⟩
    · intro s hs
      have := (List.mem_filter.mp hs).2
      simp at this
      simpa [hst0] using this
    · intro s hs
      simp [hst0] at hs
    · intro s hs
      have hm := (List.mem_filter.mp hs).1
      have := hwf s hm
      simpa [hst0, hdb1, updateFileRow] using this
    · intro s hs
      simp [hst0] at hs
    · intro c hc l hl
      simp [hst0] at hl
  have hinv := gffFold_regions (jsSplit '\n' content) st0 _ hinv0
  rw [← hst] at hinv
  -- discharge the final flush
  by_cases hbt : st.batch = []
  · simp only [hbt, ne_eq, not_true_eq_false, if_false]
    obtain ⟨i1, i2, i3, i4, i5, i6⟩ := hinv
    refine ⟨?_, ?_, ?_⟩
    · rw [hfeat, List.filter_append]
      have hleft : (db.gff_features.filter (fun f => !(f.file_id == fid))).filter
          (fun f => f.file_id == fid) = [] := by
        rw [List.filter_eq_nil]
        intro a ha
        have := (List.mem_filter.mp ha).2
        simp at this
        simp [this]
      have hright : st.insertedFeatures.filter (fun f => f.file_id == fid)
          = st.insertedFeatures := by
        rw [List.filter_eq_self]
        intro a ha
        have := hfid2 a (List.mem_append.mpr (Or.inl ha))
        simp [hst0] at this
        simp [this]
      rw [hleft, hright, List.nil_append]
      rw [hbt, List.append_nil] at hlog
      exact hlog
    · rw [i1, List.filter_append]
      have hleft : (db.sequence_regions.filter (fun s => !(s.file_id == fid))).filter
          (fun s => s.file_id == fid) = [] := by
        rw [List.filter_eq_nil]
        intro a ha
        have := (List.mem_filter.mp ha).2
        simp at this
        simp [this]
      have hright : st.insertedRegions.filter (fun s => s.file_id == fid)
          = st.insertedRegions := by
        rw [List.filter_eq_self]
        intro a ha
        have := i3 a ha
        rw [hfoldfid] at this
        simp [this]
      rw [hleft, hright, List.nil_append]
    · intro s hs
      have := i3 s hs
      rw [hfoldfid] at this
      exact this
  · simp only [hbt, ne_eq, not_false_iff, if_true]
    obtain ⟨i1, i2, i3, i4, i5, i6⟩ := hinv
    refine ⟨?_, ?_, ?_⟩
    · show (st.db.gff_features ++ st.batch).filter (fun f => f.file_id == fid)
        = (jsSplit '\n' content).filterMap (gffDataLine? fid)
      rw [hfeat, List.append_assoc, List.filter_append]
      have hleft : (db.gff_features.filter (fun f => !(f.file_id == fid))).filter
          (fun f => f.file_id == fid) = [] := by
        rw [List.filter_eq_nil]
        intro a ha
        have := (List.mem_filter.mp ha).2
        simp at this
        simp [this]
      have hright : (st.insertedFeatures ++ st.batch).filter (fun f => f.file_id == fid)
          = st.insertedFeatures ++ st.batch := by
        rw [List.filter_eq_self]
        intro a ha
        have := hfid2 a ha
        simp [hst0] at this
        simp [this]
      rw [hleft, hright, List.nil_append]
      exact hlog
    · show (st.db.sequence_regions).filter (fun s => s.file_id == fid) = st.insertedRegions
      rw [i1, List.filter_append]
      have hleft : (db.sequence_regions.filter (fun s => !(s.file_id == fid))).filter
          (fun s => s.file_id == fid) = [] := by
        rw [List.filter_eq_nil]
        intro a ha
        have := (List.mem_filter.mp ha).2
        simp at this
        simp [this]
      have hright : st.insertedRegions.filter (fun s => s.file_id == fid)
          = st.insertedRegions := by
        rw [List.filter_eq_self]
        intro a ha
        have := i3 a ha
        rw [hfoldfid] at this
        simp [this]
      rw [hleft, hright, List.nil_append]
    · intro s hs
      have := i3 s hs
      rw [hfoldfid] at this
      exact this

/-- Database holding one previously imported GFF file, used as witness
input for the re-import theorem. -/
def gffReimportDb : GffDb :=
  { gff_files := [⟨1, strL "a.gff", strL "/old/a.gff", 5, none, none, none, none, none⟩]
    gff_features := [⟨1, strL "c", strL "s", strL "gene", 1, 2, none, none, none, []⟩]
    sequence_regions := [⟨1, 1, strL "chr", some 1, some 10, none⟩]
    next_file_id := 2
    next_region_id := 2 }

theorem gff_reimport_replaces_rows_witness :
    gffReimportDb.gff_files.find? (fun row => row.filename == strL "a.gff")
      = some ⟨1, strL "a.gff", strL "/old/a.gff", 5, none, none, none, none, none⟩ ∧
    (∀ reg ∈ gffReimportDb.sequence_regions, reg.region_id < gffReimportDb.next_region_id) ∧
    (processGffFile gffReimportDb (strL "a.gff") (strL "/new/a.gff") 7
        (strL "x\ty\tz\t3\t4\t.\t+\t.\tID=n")).db.gff_features.filter
        (fun f => f.file_id == (1 : Nat))
      = (jsSplit '\n' (strL "x\ty\tz\t3\t4\t.\t+\t.\tID=n")).filterMap (gffDataLine? 1) :=
  ⟨by decide, by decide,
   (gff_reimport_replaces_rows gffReimportDb (strL "a.gff") (strL "/new/a.gff") 7
      (strL "x\ty\tz\t3\t4\t.\t+\t.\tID=n")
      ⟨1, strL "a.gff", strL "/old/a.gff", 5, none, none, none, none, none⟩
      (by decide) (by decide)).1⟩

/-- Content of the TSV file imported twice in the re-import counterexample. -/
def tsvReimportContent : Str := strL "s1\tCDS\t1\t10\t+\tlt\tg\tp"

/-- Database after importing the file a.tsv once into an empty database. -/
def tsvReimportOnce : TsvDb :=
  (processTsvFilePg emptyTsvDb (strL "a.tsv") (strL "/d/a.tsv") tsvReimportContent none).db

/-- Database after importing the same file a second time. -/
def tsvReimportTwice : TsvDb :=
  (processTsvFilePg tsvReimportOnce (strL "a.tsv") (strL "/d/a.tsv") tsvReimportContent none).db

/-- C1 counterexample: the PostgreSQL TSV importer never looks up or
deletes an existing genome with the same filename — re-importing a.tsv
adds a second genome row with the same sample id and keeps the annotation
row of the first import, so the rows for that filename are appended, not
replaced. -/
theorem tsv_reimport_appends_instead_of_replacing :
    tsvReimportOnce.genomes.length = 1 ∧
    tsvReimportOnce.annotations.length = 1 ∧
    tsvReimportTwice.genomes.length = 2 ∧
    tsvReimportTwice.annotations.length = 2 ∧
    tsvReimportTwice.genomes.map (fun g => g.sample_id) = [strL "a", strL "a"] ∧
    tsvReimportTwice.annotations.map (fun a => a.genome_id) = [1, 2] := by
  refine ⟨by decide, by decide, by decide, by decide, by decide, by decide⟩

lemma gffRun_featureCount (st0 : GffRunState) (lines : List Str)
    (h0 : st0.featureCount = 0) :
    (if (lines.foldl gffLineStep st0).batch ≠ [] then
        gffFlushBatch (lines.foldl gffLineStep st0)
      else (lines.foldl gffLineStep st0)).featureCount
      = (lines.filter gffCountedLine).length := by
  have hc := gffFold_featcount lines st0
  have hlen := length_filterMap_eq_length_filter (gffDataLine? st0.fileId) gffCountedLine
    (fun l => gffDataLine?_isSome _ l) lines
  by_cases hbt : (lines.foldl gffLineStep st0).batch = [] <;>
    simp [hbt, gffFlushBatch, hc, h0, hlen]

/-- C3 (amended): the GFF importer logs the number of non-blank,
non-comment lines with at least nine tab-separated columns, while the two
TSV importers log the number of all non-comment, non-blank lines,
regardless of column count. -/
theorem import_completion_log_counts :
    ∀ (dbg : GffDb) (fng fpg : Str) (szg : Nat) (cg : Str)
      (dbt : TsvDb) (fnt fpt ct : Str) (dbs : SqliteDb) (fns fps cs : Str),
      (processGffFile dbg fng fpg szg cg).featureCount
        = ((jsSplit '\n' cg).filter gffCountedLine).length ∧
      (processTsvFilePg dbt fnt fpt ct none).logCount = (tsvDataLines ct).length ∧
      (processSqliteFile dbs fns fps cs none).logCount = (tsvDataLines cs).length := by
  intro dbg fng fpg szg cg dbt fnt fpt ct dbs fns fps cs
  refine ⟨?_, rfl, rfl⟩
  unfold processGffFile
  rcases hfind : dbg.gff_files.find? (fun row => row.filename == fng) with _ | r <;>
    simp only [] <;> exact gffRun_featureCount _ _ rfl

/-- C3 counterexample: a GFF file whose only line has exactly eight
tab-separated columns logs zero features although the spec count is one,
and a TSV file whose only line has three columns logs one annotation
although the spec count is zero. -/
theorem log_count_differs_from_spec_count :
    (processGffFile emptyGffDb (strL "f.gff") (strL "/d/f.gff") 10
        (strL "a\tb\tc\t1\t2\t.\t+\t0")).featureCount = 0 ∧
    ((jsSplit '\n' (strL "a\tb\tc\t1\t2\t.\t+\t0")).filter specCountedLine).length = 1 ∧
    (processTsvFilePg emptyTsvDb (strL "g.tsv") (strL "/d/g.tsv") (strL "x\ty\tz")
        none).logCount = 1 ∧
    ((jsSplit '\n' (strL "x\ty\tz")).filter specCountedLine).length = 0 := by
  refine ⟨by decide, by decide, by decide, by decide⟩
